import Mathlib

/-!
Verification development for the Contextual file-indexing daemon.

Shallow embedding of `backend/database.py`, `backend/ai.py` and
`backend/indexer.py`. Paths are modelled as strings, assumed to be the
output of `os.path.abspath` (absolute, normalized, no trailing slash
except the filesystem root), so `abspath` is the identity in the model.
External collaborators (datetime formatting, file reads, the ollama text
generator, `json.loads`, `dateutil`) are passed in as function
parameters, since any of their behaviours must be tolerated by the code.
The SQLite storage layer is modelled as lists of rows; `INSERT OR
REPLACE` on the primary key becomes filter-then-append (matching rowid
ordering), the FTS `DELETE`/`INSERT` pair likewise, and a transaction
that raises before `commit` leaves the database unchanged (rollback on
close-without-commit).
-/

namespace Contextual

/-! ### Character and string helpers mirroring Python / SQLite primitives -/

/-- Python `\s` for ASCII text: space, tab, newline, carriage return,
vertical tab, form feed. -/
def isPySpace (c : Char) : Bool :=
  c == ' ' || c == '\t' || c == '\n' || c == '\r' || c == '\x0b' || c == '\x0c'

/-- Python `\w` for ASCII text: alphanumeric or underscore. -/
def isWordChar (c : Char) : Bool :=
  c.isAlphanum || c == '_'

/-- Python `str.strip()` on a character list. -/
def pyStripList (cs : List Char) : List Char :=
  ((cs.dropWhile isPySpace).reverse.dropWhile isPySpace).reverse

/-- Python `str.strip()`. -/
def pyStrip (s : String) : String := ⟨pyStripList s.data⟩

/-- Python `str.lower()` for ASCII text (character-wise, so that it
reduces definitionally, unlike `String.toLower`). -/
def pyLower (s : String) : String := ⟨s.data.map Char.toLower⟩

/-- Python `str.upper()` for ASCII text. -/
def pyUpper (s : String) : String := ⟨s.data.map Char.toUpper⟩

/-- Python `str.rstrip(os.sep)`: drop all trailing slashes. -/
def rstripSepList (cs : List Char) : List Char :=
  (cs.reverse.dropWhile (· == '/')).reverse

/-- Python `str.rstrip(os.sep)`. -/
def rstripSep (s : String) : String := ⟨rstripSepList s.data⟩

/-- Python `os.path.dirname` for POSIX paths: the prefix up to the last
slash, with trailing slashes stripped unless the head is all slashes. -/
def dirname (p : String) : String :=
  let cs := p.data
  let revBase := cs.reverse.takeWhile (· != '/')
  if revBase.length == cs.length then ""
  else
    let head := cs.take (cs.length - revBase.length)
    if head.all (· == '/') then ⟨head⟩ else ⟨rstripSepList head⟩

/-- Python `os.path.basename` for POSIX paths. -/
def basename (p : String) : String :=
  ⟨(p.data.reverse.takeWhile (· != '/')).reverse⟩

/-- Python `os.path.join(root, name)` for the shapes the scanner uses. -/
def pathJoin (root name : String) : String :=
  if root.data.getLast? == some '/' then root ++ name else root ++ "/" ++ name

/-- Python substring test `needle in hay`. -/
def hasSubList (needle : List Char) : List Char → Bool
  | [] => needle.isEmpty
  | c :: t => needle.isPrefixOf (c :: t) || hasSubList needle t

/-- Python substring test `sub in s`. -/
def hasSub (s sub : String) : Bool := hasSubList sub.data s.data

/-- Python `str.replace(pat, rep)` (all non-overlapping occurrences, left
to right); fuel-indexed so that it is structurally recursive. Fuel equal
to the length of the subject string is always enough because every step
consumes at least one character. -/
def replaceFuel (pat rep : List Char) : Nat → List Char → List Char
  | _, [] => []
  | 0, s => s
  | f + 1, c :: t =>
    if pat ≠ [] && pat.isPrefixOf (c :: t) then
      rep ++ replaceFuel pat rep f ((c :: t).drop pat.length)
    else c :: replaceFuel pat rep f t

/-- Python `str.replace` wrapper. -/
def pyReplace (s pat rep : String) : String :=
  ⟨replaceFuel pat.data rep.data s.data.length s.data⟩

/-- SQLite ASCII case folding used by `LIKE` (only A-Z fold). -/
def lowerA (c : Char) : Char :=
  if 'A' ≤ c && c ≤ 'Z' then Char.ofNat (c.toNat + 32) else c

/-- SQLite `LIKE` matcher: `%` matches any run, `_` any single character,
comparison is ASCII case-insensitive; fuel-indexed (pattern length plus
string length suffices since every step consumes from one of them). -/
def likeMatchF : Nat → List Char → List Char → Bool
  | 0, _, _ => false
  | _ + 1, [], [] => true
  | f + 1, '%' :: ps, s =>
    likeMatchF f ps s ||
      (match s with
       | [] => false
       | _ :: s2 => likeMatchF f ('%' :: ps) s2)
  | f + 1, '_' :: ps, _ :: ss => likeMatchF f ps ss
  | f + 1, p :: ps, c :: ss => (lowerA p == lowerA c) && likeMatchF f ps ss
  | _ + 1, _, _ => false

/-- SQLite `s LIKE pat`. -/
def sqlLike (pat s : String) : Bool :=
  likeMatchF (pat.data.length + s.data.length + 1) pat.data s.data

/-- Python `os.path.splitext(p)[1]`: the extension of the basename
including the dot; empty when the basename has no dot after a non-dot
character (so dotfiles like `.txt` have no extension). -/
def splitextExt (p : String) : String :=
  let b := (p.data.reverse.takeWhile (· != '/')).reverse
  let after := b.reverse.takeWhile (· != '.')
  if after.length == b.length then ""
  else
    let dotIdx := b.length - after.length - 1
    if (b.take dotIdx).any (· != '.') then ⟨b.drop dotIdx⟩ else ""

/-! ### Data model: Registry rows, Content-Index rows, search rows -/

/-- One row of the `files` table (the Registry). `summary` and
`tech_stack` are nullable columns. -/
structure FileRow where
  path : String
  kind : String
  ext : String
  last_modified : Int
  creation_time : Int
  size : Int
  indexed_at : String
  summary : Option String
  tech_stack : Option String
deriving DecidableEq, Repr

/-- One row of the `file_index` FTS table (the Content Index). The FTS
table has no key constraint, so duplicates are representable. -/
structure IndexRow where
  path : String
  kind : String
  ext : String
  content : String
  summary : String
  tech_stack : String
  created_str : String
  modified_str : String
deriving DecidableEq, Repr

/-- A search result row as returned by `search_index`. -/
structure SRow where
  path : String
  kind : String
  snippet : String
deriving DecidableEq, Repr

/-- The persisted state: Registry, Content Index and the index roots
(`index_roots.indexed_at` is never read, so only the paths are kept). -/
structure DB where
  files : List FileRow
  file_index : List IndexRow
  index_roots : List String
deriving DecidableEq, Repr

/-- External collaborators used by the storage layer: `fmtDate` is
`datetime.fromtimestamp(·).strftime('%Y %b %d %A')`, `nowStr` the SQL
`datetime('now')` value, `readFile` a best-effort file read returning
`none` when the open or read raises. -/
structure Env where
  fmtDate : Int → String
  nowStr : String
  readFile : String → Option String

/-! ### database.py: roots tracking -/

/-- `add_index_root`: `INSERT OR REPLACE` of the normalized root path. -/
def add_index_root (db : DB) (root_path : String) : DB :=
  { db with index_roots := db.index_roots.filter (fun r => r != root_path) ++ [root_path] }

/-- The match predicate of `get_best_root_for_path`: the path equals the
root, or extends it past a separator boundary. -/
def rootMatches (p r : String) : Bool :=
  p == r || (rstripSep r ++ "/").data.isPrefixOf p.data

/-- The loop body of `get_best_root_for_path`: keep the candidate when
the root does not match or is not strictly longer. -/
def bestStep (path : String) (best : Option String) (r : String) : Option String :=
  if rootMatches path r then
    match best with
    | none => some r
    | some b => if r.length > b.length then some r else best
  else best

/-- `get_best_root_for_path`: fold over the stored roots keeping the
longest boundary-safe ancestor (first one wins on equal length). -/
def get_best_root_for_path (roots : List String) (path : String) : Option String :=
  roots.foldl (bestStep path) none

/-! ### database.py: insert and update records -/

/-- Extension stored by `insert_file`:
`os.path.splitext(path)[1].lower().lstrip(".")`. -/
def extFromPath (p : String) : String :=
  ⟨(pyLower (splitextExt p)).data.dropWhile (· == '.')⟩

/-- `insert_file` success path: fetch prior summary and tech stack for
the path, then replace the Registry row (`INSERT OR REPLACE`) and the
Content-Index row (`DELETE` then `INSERT`), all committed together. -/
def insert_file (env : Env) (db : DB) (path content : String)
    (last_modified creation_time size : Int) : DB :=
  let prior := db.files.find? (fun r => r.path == path)
  let summary := prior.bind (fun r => r.summary)
  let tech_stack := prior.bind (fun r => r.tech_stack)
  let ext := extFromPath path
  let kind := "file"
  let newReg : FileRow :=
    ⟨path, kind, ext, last_modified, creation_time, size, env.nowStr, summary, tech_stack⟩
  let c_str := env.fmtDate creation_time
  let m_str := env.fmtDate last_modified
  let newIdx : IndexRow :=
    ⟨path, kind, ext, content, summary.getD "", tech_stack.getD "", c_str, m_str⟩
  { db with
    files := db.files.filter (fun r => r.path != path) ++ [newReg]
    file_index := db.file_index.filter (fun r => r.path != path) ++ [newIdx] }

/-- `insert_folder` success path (kind folder, empty extension and
content, size 0). -/
def insert_folder (env : Env) (db : DB) (path : String)
    (last_modified creation_time : Int) : DB :=
  let kind := "folder"
  let ext := ""
  let prior := db.files.find? (fun r => r.path == path)
  let summary := prior.bind (fun r => r.summary)
  let tech_stack := prior.bind (fun r => r.tech_stack)
  let newReg : FileRow :=
    ⟨path, kind, ext, last_modified, creation_time, 0, env.nowStr, summary, tech_stack⟩
  let c_str := env.fmtDate creation_time
  let m_str := env.fmtDate last_modified
  let newIdx : IndexRow :=
    ⟨path, kind, ext, "", summary.getD "", tech_stack.getD "", c_str, m_str⟩
  { db with
    files := db.files.filter (fun r => r.path != path) ++ [newReg]
    file_index := db.file_index.filter (fun r => r.path != path) ++ [newIdx] }

/-- Transactional `insert_file`: `raises i = true` means the i-th SQL
statement (0 select, 1 registry replace, 2 index delete, 3 index insert)
raises; the exception is caught, `conn.commit()` is skipped, and closing
the connection rolls the transaction back, so the pre-call state is
returned together with `False`. -/
def insert_fileTx (raises : Nat → Bool) (env : Env) (db : DB) (path content : String)
    (last_modified creation_time size : Int) : DB × Bool :=
  if raises 0 then (db, false) else
  let prior := db.files.find? (fun r => r.path == path)
  let summary := prior.bind (fun r => r.summary)
  let tech_stack := prior.bind (fun r => r.tech_stack)
  let ext := extFromPath path
  let kind := "file"
  let newReg : FileRow :=
    ⟨path, kind, ext, last_modified, creation_time, size, env.nowStr, summary, tech_stack⟩
  if raises 1 then (db, false) else
  let w1 : DB := { db with files := db.files.filter (fun r => r.path != path) ++ [newReg] }
  if raises 2 then (db, false) else
  let w2 : DB := { w1 with file_index := w1.file_index.filter (fun r => r.path != path) }
  if raises 3 then (db, false) else
  let c_str := env.fmtDate creation_time
  let m_str := env.fmtDate last_modified
  let newIdx : IndexRow :=
    ⟨path, kind, ext, content, summary.getD "", tech_stack.getD "", c_str, m_str⟩
  ({ w2 with file_index := w2.file_index ++ [newIdx] }, true)

/-- Transactional `insert_folder`, same statement numbering. -/
def insert_folderTx (raises : Nat → Bool) (env : Env) (db : DB) (path : String)
    (last_modified creation_time : Int) : DB × Bool :=
  if raises 0 then (db, false) else
  let prior := db.files.find? (fun r => r.path == path)
  let summary := prior.bind (fun r => r.summary)
  let tech_stack := prior.bind (fun r => r.tech_stack)
  let newReg : FileRow :=
    ⟨path, "folder", "", last_modified, creation_time, 0, env.nowStr, summary, tech_stack⟩
  if raises 1 then (db, false) else
  let w1 : DB := { db with files := db.files.filter (fun r => r.path != path) ++ [newReg] }
  if raises 2 then (db, false) else
  let w2 : DB := { w1 with file_index := w1.file_index.filter (fun r => r.path != path) }
  if raises 3 then (db, false) else
  let c_str := env.fmtDate creation_time
  let m_str := env.fmtDate last_modified
  let newIdx : IndexRow :=
    ⟨path, "folder", "", "", summary.getD "", tech_stack.getD "", c_str, m_str⟩
  ({ w2 with file_index := w2.file_index ++ [newIdx] }, true)

/-- `get_file_metadata` (the full row stands for the selected columns). -/
def get_file_metadata (db : DB) (path : String) : Option FileRow :=
  db.files.find? (fun r => r.path == path)

/-- `update_tech_stack`. -/
def update_tech_stack (db : DB) (path new_stack : String) : DB :=
  { db with
    files := db.files.map (fun r =>
      if r.path == path then { r with tech_stack := some new_stack } else r) }

/-- `update_summary`: update the Registry summary, then rewrite the
Content-Index row keeping its other columns, or create a minimal row
when none exists yet. -/
def update_summary (db : DB) (path new_summary : String) : DB :=
  let files1 := db.files.map (fun r =>
    if r.path == path then { r with summary := some new_summary } else r)
  match db.file_index.find? (fun r => r.path == path) with
  | some row =>
    let newIdx : IndexRow :=
      ⟨path, row.kind, row.ext, row.content, new_summary, row.tech_stack,
       row.created_str, row.modified_str⟩
    { db with
      files := files1
      file_index := db.file_index.filter (fun r => r.path != path) ++ [newIdx] }
  | none =>
    let meta := files1.find? (fun r => r.path == path)
    let kind := (meta.map (fun r : FileRow => r.kind)).getD "file"
    let ext := (meta.map (fun r : FileRow => r.ext)).getD ""
    let newIdx : IndexRow := ⟨path, kind, ext, "", new_summary, "", "", ""⟩
    { db with files := files1, file_index := db.file_index ++ [newIdx] }

/-- `get_summary`. -/
def get_summary (db : DB) (path : String) : Option String :=
  (db.files.find? (fun r => r.path == path)).bind (fun r : FileRow => r.summary)

/-! ### database.py: folder aggregation -/

/-- A `collections.Counter` keeping first-insertion order. -/
def counterAdd (c : List (String × Nat)) (k : String) : List (String × Nat) :=
  if c.any (fun p => p.1 == k) then
    c.map (fun p => if p.1 == k then (p.1, p.2 + 1) else p)
  else c ++ [(k, 1)]

/-- Stable descending insertion for `Counter.most_common` (later entries
go after earlier entries of equal count, as Python sorting is stable). -/
def insertByCountDesc (x : String × Nat) : List (String × Nat) → List (String × Nat)
  | [] => [x]
  | y :: ys => if x.2 > y.2 then x :: y :: ys else y :: insertByCountDesc x ys

/-- `Counter.most_common(n)`: stable sort by descending count, take n. -/
def mostCommon (c : List (String × Nat)) (n : Nat) : List (String × Nat) :=
  (c.foldl (fun acc x => insertByCountDesc x acc) []).take n

/-- The extension-to-label table of `_infer_stack_from_ext`. -/
def extLabelTable : List (String × String) :=
  [("py", "Python"), ("js", "JavaScript"), ("ts", "TypeScript"),
   ("tsx", "React, TypeScript"), ("jsx", "React, JavaScript"), ("sql", "SQL"),
   ("json", "JSON"), ("md", "Markdown"), ("csv", "CSV"), ("yml", "YAML"),
   ("yaml", "YAML"), ("swift", "Swift"), ("html", "HTML"), ("css", "CSS"),
   ("sh", "Shell"), ("env", "Env"), ("config", "Config")]

/-- Order-preserving dedup used at the end of `_infer_stack_from_ext`. -/
def dedupKeep (l : List String) : List String :=
  l.foldl (fun (acc : List String) x => if x ∈ acc then acc else acc ++ [x]) []

/-- `_infer_stack_from_ext`: label the first 12 extensions by frequency
(known ones via the table, unknown ones uppercased), dedup keeping
order. -/
def infer_stack_from_ext (ext_counts : List (String × Nat)) : List String :=
  let labels := (mostCommon ext_counts 12).foldl
    (fun (acc : List String) p =>
      if p.1 == "" then acc
      else
        match extLabelTable.find? (fun q => q.1 == pyLower p.1) with
        | some q => acc ++ [q.2]
        | none => acc ++ [pyUpper p.1])
    []
  dedupKeep labels

/-- `_fetch_children_rows`: SQL `path LIKE base + percent` with the Python
one-segment filter in the direct case. Note the folder path itself is
part of the LIKE pattern, so `_` and `%` inside it act as wildcards and
matching is ASCII case-insensitive, exactly as in SQLite. -/
def fetch_children_rows (reg : List FileRow) (folder_path : String) (recursive : Bool) :
    List FileRow :=
  let base := rstripSep folder_path ++ "/"
  let rows := reg.filter (fun r => sqlLike (base ++ "%") r.path && r.path != folder_path)
  if recursive then rows
  else
    rows.filter (fun r =>
      let rel : List Char := r.path.data.drop base.length
      !rel.isEmpty && !rel.contains '/')

/-- The three aggregates `_compute_folder_stats` produces. -/
structure FolderStats where
  summary : String
  tech_stack : String
  content : String
deriving DecidableEq, Repr

/-- `_compute_folder_stats`: counts, inferred stack, synopsis line and
concatenated content from child rows. -/
def compute_folder_stats (rows : List FileRow) (max_children : Nat) : FolderStats :=
  let filenames := rows.map (fun r => basename r.path)
  let fileRows := rows.filter (fun r => r.kind != "folder")
  let folder_count := (rows.filter (fun r => r.kind == "folder")).length
  let file_count := fileRows.length
  let ext_counts := fileRows.foldl (fun c r => counterAdd c r.ext) []
  let summary_bits := rows.foldl
    (fun (acc : List String) r =>
      let s := pyStrip (r.summary.getD "")
      if s != "" then acc ++ [basename r.path ++ ": " ++ s] else acc)
    []
  let inferred := infer_stack_from_ext ext_counts
  let tech_stack := if inferred.isEmpty then "Mixed" else String.intercalate ", " inferred
  let top_ext := String.intercalate ", "
    (((mostCommon ext_counts 5).filter (fun p => p.1 != "")).map
      (fun p => p.1 ++ ":" ++ toString p.2))
  let summary :=
    if top_ext != "" then
      s!"Folder with {file_count} files and {folder_count} subfolders. Top types: {top_ext}."
    else
      s!"Folder with {file_count} files and {folder_count} subfolders."
  let content := pyStrip (summary ++ " " ++ String.intercalate " " (filenames.take max_children)
    ++ " " ++ String.intercalate " " (summary_bits.take max_children))
  ⟨summary, tech_stack, content⟩

/-- `update_folder_aggregate`: direct-children stats into the Registry
row, recursive stats into the Content-Index row, preserving the date
tokens that were already stored for the folder. -/
def update_folder_aggregate (db : DB) (folder_path : String) (max_children : Nat) : DB :=
  let direct := compute_folder_stats (fetch_children_rows db.files folder_path false) max_children
  let recAgg := compute_folder_stats (fetch_children_rows db.files folder_path true) max_children
  let files1 := db.files.map (fun r =>
    if r.path == folder_path then
      { r with summary := some direct.summary, tech_stack := some direct.tech_stack }
    else r)
  let meta := db.file_index.find? (fun r => r.path == folder_path)
  let created_str := (meta.map (fun r : IndexRow => r.created_str)).getD ""
  let modified_str := (meta.map (fun r : IndexRow => r.modified_str)).getD ""
  let newIdx : IndexRow :=
    ⟨folder_path, "folder", "", recAgg.content, recAgg.summary, recAgg.tech_stack,
     created_str, modified_str⟩
  { db with
    files := files1
    file_index := db.file_index.filter (fun r => r.path != folder_path) ++ [newIdx] }

/-! ### database.py: search scoping and folder bubbling -/

/-- The SQL check `SELECT path FROM files WHERE path = ? AND kind =
folder` used during bubbling. -/
def isFolderRowIn (reg : List FileRow) (p : String) : Bool :=
  reg.any (fun r => r.path == p && r.kind == "folder")

/-- Add to the collected set (Python `set.add`; order of first insertion
stands for the unspecified set iteration order). -/
def insertIfNew (acc : List String) (p : String) : List String :=
  if p ∈ acc then acc else acc ++ [p]

/-- The ancestor walk of `_get_parent_folders_for_paths` for one path:
climb `dirname` links while `cur` is nonempty and not a fixpoint, record
Registry folder rows, and stop right after handling the best indexed
root. Fuel-indexed; each step strictly shortens the path, so fuel equal
to the starting length plus one is always enough. -/
def walkUp (reg : List FileRow) (stopAt : Option String) :
    Nat → String → List String → List String
  | 0, _, acc => acc
  | fuel + 1, cur, acc =>
    if cur == "" || cur == dirname cur then acc
    else if stopAt == some cur then
      if isFolderRowIn reg cur then insertIfNew acc cur else acc
    else
      let acc1 := if isFolderRowIn reg cur then insertIfNew acc cur else acc
      walkUp reg stopAt fuel (dirname cur) acc1

/-- Stable ascending insertion by length for `sorted(key=len)`. -/
def insertByLenAsc (x : String) : List String → List String
  | [] => [x]
  | y :: ys => if x.length < y.length then x :: y :: ys else y :: insertByLenAsc x ys

/-- Python `sorted(paths, key=len)`. -/
def sortByLen (l : List String) : List String :=
  l.foldl (fun acc x => insertByLenAsc x acc) []

/-- `_get_parent_folders_for_paths`: existing Registry folders up the
tree from each path, stopping at its best indexed root, sorted by
ascending path length. -/
def get_parent_folders_for_paths (reg : List FileRow) (roots : List String)
    (paths : List String) : List String :=
  let fps := paths.foldl
    (fun acc p => walkUp reg (get_best_root_for_path roots p) (p.length + 1) (dirname p) acc)
    []
  sortByLen fps

/-- The scoping test of `search_index`: path equals the requested root or
extends it past a separator boundary. -/
def inScopeB (root_path p : String) : Bool :=
  p == root_path || (rstripSep root_path ++ "/").data.isPrefixOf p.data

/-- One step of the folder-bubbling loop: append a folder entry with the
generic snippet when the path has not been seen. -/
def bubbleStep (acc : List SRow × List String) (fp : String) : List SRow × List String :=
  if fp ∈ acc.2 then acc
  else (acc.1 ++ [(⟨fp, "folder", "Contains matching files."⟩ : SRow)], acc.2 ++ [fp])

/-- Deduplicate results by path, first-seen order preserved. -/
def dedupByPath (l : List SRow) : List SRow :=
  (l.foldl
    (fun (acc : List SRow × List String) r =>
      if r.path ∈ acc.2 then acc else (acc.1 ++ [r], acc.2 ++ [r.path]))
    ([], [])).1

/-- The pure tail of `search_index` (lines after the SQL queries):
deduplicate, scope to the optional root, bubble ancestor folders of the
file results, cap at 20. `results` stands for the concatenation of the
result sets the SQL text engine returned, which can be any rows of the
Content Index. -/
def search_index_post (results : List SRow) (reg : List FileRow) (roots : List String)
    (root_path : Option String) : List SRow :=
  let unique0 := dedupByPath results
  let unique1 : List SRow :=
    match root_path with
    | some rp => unique0.filter (fun r => inScopeB rp r.path)
    | none => unique0
  let seen := unique1.map (fun r => r.path)
  let file_paths := (unique1.filter (fun r => r.kind == "file")).map (fun r => r.path)
  if file_paths.isEmpty then unique1.take 20
  else
    let parents := get_parent_folders_for_paths reg roots file_paths
    (parents.foldl bubbleStep (unique1, seen)).1.take 20

/-! ### database.py: rebuild -/

/-- `rebuild_fts_index`: drop the Content Index and rebuild one row per
Registry row, re-reading file bytes best-effort (unreadable files yield
empty content). -/
def rebuild_fts_index (env : Env) (db : DB) : DB :=
  let newIdx := db.files.map (fun r =>
    let kind := if r.kind == "" then "file" else r.kind
    let content := if kind == "file" then (env.readFile r.path).getD "" else ""
    (⟨r.path, kind, r.ext, content, r.summary.getD "", r.tech_stack.getD "",
      env.fmtDate r.creation_time, env.fmtDate r.last_modified⟩ : IndexRow))
  { db with file_index := newIdx }

/-! ### ai.py: intent cache -/

/-- `_INTENT_CACHE_TTL_SEC`. -/
def INTENT_CACHE_TTL : Nat := 120

/-- `_cache_get`: lookup with lazy eviction of expired entries (`now >
expires` pops the entry and misses). The cache dictionary is modelled as
an association list with at most one entry per key. -/
def cache_get (c : List (String × String × Nat)) (now : Nat) (key : String) :
    Option String × List (String × String × Nat) :=
  match c.find? (fun e => e.1 == key) with
  | none => (none, c)
  | some e =>
    if now > e.2.2 then (none, c.filter (fun x => x.1 != key)) else (some e.2.1, c)

/-- `_cache_set`: store under the key with expiry `now + TTL`. -/
def cache_set (c : List (String × String × Nat)) (now : Nat) (key v : String) :
    List (String × String × Nat) :=
  c.filter (fun x => x.1 != key) ++ [(key, v, now + INTENT_CACHE_TTL)]

/-! ### ai.py: normalization and the deterministic rule tier -/

/-- `clean_string`: map every character that is neither a word character
nor whitespace to a space, then strip. -/
def clean_string (s : String) : String :=
  if s.isEmpty then ""
  else pyStrip ⟨s.data.map (fun c => if isWordChar c || isPySpace c then c else ' ')⟩

/-- Consume an exact literal prefix. -/
def litPrefix : List Char → List Char → Option (List Char)
  | [], s => some s
  | _, [] => none
  | p :: ps, c :: cs => if p == c then litPrefix ps cs else none

/-- Consume one or more whitespace characters (regex `\s+`, greedy; the
following literal is a non-space so maximal munch is exact). -/
def spaces1 : List Char → Option (List Char)
  | [] => none
  | c :: cs => if isPySpace c then some (cs.dropWhile isPySpace) else none

/-- Match `20\d{2}\b` at the current position, returning the year text. -/
def yearTokenAt (cs : List Char) : Option String :=
  match cs with
  | '2' :: '0' :: d1 :: d2 :: rest =>
    if d1.isDigit && d2.isDigit && !(isWordChar (rest.headD ' ')) then
      some ⟨['2', '0', d1, d2]⟩
    else none
  | _ => none

/-- Match `files\s+<kw>\s+(20\d{2})\b` at the current position. -/
def ruleTailMatch (kw : List Char) (cs : List Char) : Option String := do
  let r1 ← litPrefix ['f', 'i', 'l', 'e', 's'] cs
  let r2 ← spaces1 r1
  let r3 ← litPrefix kw r2
  let r4 ← spaces1 r3
  yearTokenAt r4

/-- `re.search` for `\bfiles\s+<kw>\s+(20\d{2})\b`: try every position
whose previous character is not a word character, leftmost match wins. -/
def ruleScan (kw : List Char) : Bool → List Char → Option String
  | _, [] => none
  | prevWord, c :: rest =>
    match (if prevWord then none else ruleTailMatch kw (c :: rest)) with
    | some y => some y
    | none => ruleScan kw (isWordChar c) rest

/-- The year filter emitted by the rule tier and the year override of the
query builder. -/
def dateRuleFilter (y : String) : String :=
  "(created_str:\"" ++ y ++ "\" OR modified_str:\"" ++ y ++ "\")"

/-- `_rule_based_intent`: the deterministic fast-path rules. -/
def rule_based_intent (user_query : String) : Option String :=
  let q := pyLower (pyStrip user_query)
  match ruleScan ['f', 'r', 'o', 'm'] false q.data with
  | some y => some (dateRuleFilter y)
  | none =>
    match ruleScan ['i', 'n'] false q.data with
    | some y => some (dateRuleFilter y)
    | none =>
      if q == "budget files" || q == "budget file" then
        some "(path:budget* OR content:budget OR summary:budget OR ext:csv OR ext:md)"
      else none

/-! ### ai.py: JSON repair tier -/

/-- The structured intent record extracted from the collaborator output
(values already passed through Python `str`). -/
structure Intent where
  date_filter : Option String
  tech_filter : Option String
  keywords : Option String
deriving DecidableEq, Repr

/-- Regex `\{.*\}` with DOTALL: from the first opening brace to the last
closing brace, when the latter comes after the former. -/
def extractBraceBlock (s : String) : Option String :=
  let cs := s.data
  match cs.findIdx? (fun c => c == '{'), cs.reverse.findIdx? (fun c => c == '}') with
  | some i, some jr =>
    let j := cs.length - 1 - jr
    if i < j then some ⟨(cs.drop i).take (j - i + 1)⟩ else none
  | _, _ => none

/-- Case-insensitive literal prefix (regex IGNORECASE, ASCII). -/
def ciPrefix : List Char → List Char → Option (List Char)
  | [], s => some s
  | _, [] => none
  | p :: ps, c :: cs => if p.toLower == c.toLower then ciPrefix ps cs else none

/-- Alternative `null` (case-insensitive), returning the matched text. -/
def matchNullAlt (cs : List Char) : Option (List Char) :=
  match cs with
  | c1 :: c2 :: c3 :: c4 :: _ =>
    if pyLower (⟨[c1, c2, c3, c4]⟩ : String) == "null" then some [c1, c2, c3, c4]
    else none
  | _ => none

/-- Alternative `"[^"]*"`, returning the matched text with its quotes. -/
def matchQuoted (cs : List Char) : Option (List Char) :=
  match cs with
  | '"' :: rest =>
    let inner := rest.takeWhile (fun c => c != '"')
    match rest.drop inner.length with
    | '"' :: _ => some ('"' :: (inner ++ ['"']))
    | _ => none
  | _ => none

/-- Alternative `\d{4}`. -/
def match4Digits (cs : List Char) : Option (List Char) :=
  match cs with
  | d1 :: d2 :: d3 :: d4 :: _ =>
    if d1.isDigit && d2.isDigit && d3.isDigit && d4.isDigit then some [d1, d2, d3, d4]
    else none
  | _ => none

/-- Alternative `\w+` (maximal munch). -/
def matchWordPlus (cs : List Char) : Option (List Char) :=
  let w := cs.takeWhile isWordChar
  if w.isEmpty then none else some w

/-- Match `<fname>\s*:\s*(alt1|alt2|...)` at the current position; the
alternatives are tried left to right as in regex alternation. -/
def fieldValueAt (fname : List Char) (alts : List (List Char → Option (List Char)))
    (cs : List Char) : Option (List Char) := do
  let r1 ← ciPrefix fname cs
  match r1.dropWhile isPySpace with
  | ':' :: r3 =>
    let r4 := r3.dropWhile isPySpace
    alts.foldl (fun acc f => match acc with | some v => some v | none => f r4) none
  | _ => none

/-- `re.search` driver for one field pattern: leftmost full match. -/
def scanField (fname : List Char) (alts : List (List Char → Option (List Char))) :
    List Char → Option (List Char)
  | [] => none
  | c :: rest =>
    match fieldValueAt fname alts (c :: rest) with
    | some v => some v
    | none => scanField fname alts rest

/-- Python `v.strip(chr(34))`: drop all leading and trailing quotes. -/
def stripQuotes (v : String) : String :=
  ⟨((v.data.dropWhile (fun c => c == '"')).reverse.dropWhile (fun c => c == '"')).reverse⟩

/-- Turn a captured field value into the stored intent value: the token
`null` (any case) becomes `None`, otherwise quotes are stripped. -/
def nullToNone (v : String) : Option String :=
  if pyLower v == "null" then none else some (stripQuotes v)

/-- `_regex_extract_intent`: tolerant per-field extraction. -/
def regex_extract_intent (text : String) : Intent :=
  let dRaw := scanField "date_filter".data [matchNullAlt, matchQuoted, match4Digits, matchWordPlus] text.data
  let tRaw := scanField "tech_filter".data [matchNullAlt, matchQuoted, matchWordPlus] text.data
  let kRaw := scanField "keywords".data [matchNullAlt, matchQuoted] text.data
  ⟨(dRaw.map (fun v => (⟨v⟩ : String))).bind nullToNone,
   (tRaw.map (fun v => (⟨v⟩ : String))).bind nullToNone,
   (kRaw.map (fun v => (⟨v⟩ : String))).bind nullToNone⟩

/-! ### ai.py: query builder -/

/-- Python `str.split()`: split on whitespace runs, no empty words. -/
def pySplitGo : List Char → List Char → List String
  | acc, [] => if acc.isEmpty then [] else [⟨acc.reverse⟩]
  | acc, c :: t =>
    if isPySpace c then
      if acc.isEmpty then pySplitGo [] t else ⟨acc.reverse⟩ :: pySplitGo [] t
    else pySplitGo (c :: acc) t

/-- Python `str.split()`. -/
def pySplit (s : String) : List String := pySplitGo [] s.data

/-- The date trigger tokens of `build_fts_query`. -/
def timeTriggers : List String :=
  ["today", "yesterday", "week", "month", "year", "202", "jan", "feb", "mar",
   "apr", "may", "jun", "jul", "aug", "sep", "oct", "nov", "dec"]

/-- The month abbreviations checked by the year-override guard. -/
def monthWords : List String :=
  ["jan", "feb", "mar", "apr", "may", "jun", "jul", "aug", "sep", "oct", "nov", "dec"]

/-- `re.search` for `\b(20\d{2})\b`. -/
def yearScan : Bool → List Char → Option String
  | _, [] => none
  | prevWord, c :: rest =>
    match (if prevWord then none else yearTokenAt (c :: rest)) with
    | some y => some y
    | none => yearScan (isWordChar c) rest

/-- `re.fullmatch(r"20\d{2}", v)`. -/
def isBareYear (v : String) : Bool :=
  match v.data with
  | ['2', '0', d1, d2] => d1.isDigit && d2.isDigit
  | _ => false

/-- The technology-name to extension table of `build_fts_query`. -/
def extTechMap : List (String × String) :=
  [("python", "py"), ("javascript", "js"), ("typescript", "ts"), ("react", "tsx"),
   ("tsx", "tsx"), ("jsx", "jsx"), ("sql", "sql"), ("csv", "csv"),
   ("markdown", "md"), ("json", "json"), ("yaml", "yml")]

/-- The stop-word list of the keyword clause. -/
def fillersBase : List String :=
  ["files", "file", "made", "created", "modified", "scripts", "script",
   "documents", "document", "show", "me", "find", "give", "list", "main",
   "components", "component", "app", "from", "in", "on", "of", "the", "a", "an",
   "today", "yesterday", "tomorrow", "week", "month", "year",
   "jan", "feb", "mar", "apr", "may", "jun", "jul", "aug", "sep", "oct", "nov", "dec"]

/-- `build_fts_query`: date, tech and keyword clauses joined with AND
after exact-duplicate removal. `todayTok` and `yesterdayTok` stand for
`datetime.now()` formatted as `%Y %b %d` for today and yesterday, and
`dateParse` for `dateutil.parser.parse` followed by that formatting
(`none` when parsing raises, in which case the value passes through). -/
def build_fts_query (todayTok yesterdayTok : String) (dateParse : String → Option String)
    (data : Intent) (original_query : String) : String :=
  let oq := pyLower original_query
  let user_mentioned_time := timeTriggers.any (fun t => hasSub oq t)
  let dateParts : List String :=
    if user_mentioned_time then
      let year_match := yearScan false oq.data
      let has_month_word := monthWords.any (fun m => hasSub oq m)
      let yearOverride : Option String :=
        match year_match with
        | some y =>
          if !has_month_word && !(hasSub oq "today") && !(hasSub oq "yesterday") then some y
          else none
        | none => none
      match yearOverride with
      | some y => [dateRuleFilter y]
      | none =>
        match data.date_filter with
        | none => []
        | some raw =>
          if raw == "" || pyLower raw == "null" then []
          else
            let val := pyLower raw
            let date_str :=
              if hasSub val "yesterday" then yesterdayTok
              else if hasSub val "today" then todayTok
              else if isBareYear val then val
              else match dateParse val with
                   | some d => d
                   | none => val
            [dateRuleFilter date_str]
    else []
  let techPair : Option String × List String :=
    match data.tech_filter with
    | none => (none, [])
    | some raw =>
      if raw == "" || pyLower raw == "null" then (none, [])
      else
        let tech_val := clean_string raw
        let clauses := ["content:" ++ tech_val, "path:" ++ tech_val]
        let clauses :=
          match extTechMap.find? (fun q => q.1 == pyLower tech_val) with
          | some q => clauses ++ ["ext:" ++ q.2, "path:" ++ q.2, "path:" ++ q.2 ++ "*"]
          | none => clauses
        (some tech_val, ["(" ++ String.intercalate " OR " clauses ++ ")"])
  let kwParts : List String :=
    match data.keywords with
    | none => []
    | some raw =>
      if raw == "" || pyLower raw == "null" then []
      else
        let val := clean_string raw
        let fillers := fillersBase ++
          (match techPair.1 with | some tv => [pyLower tv] | none => [])
        let clean_words := (pySplit val).filter (fun w => !(fillers.contains (pyLower w)))
        if clean_words.isEmpty then []
        else
          let final_kw := String.intercalate " " clean_words
          if (pySplit final_kw).length == 1 then
            ["(path:" ++ final_kw ++ "* OR ext:" ++ final_kw ++ " OR content:" ++ final_kw
              ++ " OR summary:" ++ final_kw ++ ")"]
          else
            ["(content:" ++ final_kw ++ " OR summary:" ++ final_kw ++ " OR path:"
              ++ final_kw ++ "*)"]
  let parts := dateParts ++ techPair.2 ++ kwParts
  if parts.isEmpty then "" else String.intercalate " AND " (dedupKeep parts)

/-! ### ai.py: robust intent parse -/

/-- The observable outcome of `parse_search_intent`: the filter string,
the cache afterwards, and whether the external generator was called. -/
structure ParseOut where
  filter : String
  cache : List (String × String × Nat)
  aiCalled : Bool
deriving Repr

/-- The fence-stripped collaborator output:
`result.replace("```json", "").replace("```", "").strip()` applied to the
stripped response. -/
def cleanResultOf (resp : String) : String :=
  pyStrip (pyReplace (pyReplace (pyStrip resp) "```json" "") "```" "")

/-- `parse_search_intent`: cache tier, deterministic rules, then the
AI-assisted tier. `ai` is the collaborator response (`Except.error` for
an exception or timeout of `ollama.chat`), `jsonLoads` stands for
`json.loads` on the brace block followed by the dictionary accesses
(`Except.error` when decoding raises or the decoded value is not a
suitable mapping). Every failure lands on `clean_string user_query`, and
the final value is cached before returning, exactly as in the source. -/
def parse_search_intent (c : List (String × String × Nat)) (now : Nat)
    (ai : Except String String) (jsonLoads : String → Except String Intent)
    (todayTok yesterdayTok : String) (dateParse : String → Option String)
    (user_query : String) : ParseOut :=
  let normalized := clean_string (pyLower user_query)
  let g := cache_get c now normalized
  match g.1 with
  | some v => ⟨v, g.2, false⟩
  | none =>
    let c1 := g.2
    match rule_based_intent user_query with
    | some ruled => ⟨ruled, cache_set c1 now normalized ruled, false⟩
    | none =>
      match ai with
      | Except.error _ =>
        let fb := clean_string user_query
        ⟨fb, cache_set c1 now normalized fb, true⟩
      | Except.ok resp =>
        let clean_result := cleanResultOf resp
        match extractBraceBlock clean_result with
        | some blob =>
          match jsonLoads blob with
          | Except.ok data =>
            let f := build_fts_query todayTok yesterdayTok dateParse data user_query
            let final := if f == "" then clean_string user_query else f
            ⟨final, cache_set c1 now normalized final, true⟩
          | Except.error _ =>
            let repaired := regex_extract_intent clean_result
            let f := build_fts_query todayTok yesterdayTok dateParse repaired user_query
            let final := if f == "" then clean_string user_query else f
            ⟨final, cache_set c1 now normalized final, true⟩
        | none =>
          let fb := clean_string user_query
          ⟨fb, cache_set c1 now normalized fb, true⟩

/-! ### indexer.py: scanning -/

/-- `SUPPORTED_EXTS`. -/
def SUPPORTED_EXTS : List String :=
  [".txt", ".md", ".py", ".swift", ".json", ".js", ".ts", ".tsx", ".jsx", ".css",
   ".html", ".sql", ".csv", ".yaml", ".yml", ".sh", ".config", ".env"]

/-- A file of the modelled filesystem tree. `readRaises` means `os.stat`
or the open or read of the file raises inside `process_file`;
`dbRaises` means an SQL statement inside `insert_file` raises (which
`insert_file` catches, returning `False`). -/
structure FileNode where
  name : String
  content : String
  mtime : Int
  ctime : Int
  fsize : Int
  readRaises : Bool
  dbRaises : Bool

/-- A directory of the modelled filesystem tree. `statRaises` means
`os.stat` on the directory raises in `scan_directory`; `dbRaises` means
an SQL statement inside `insert_folder` raises. -/
inductive DirT where
  | mk (name : String) (mtime ctime : Int) (statRaises dbRaises : Bool)
       (fileEntries : List FileNode) (subs : List DirT)

/-- Name accessor for `DirT`. -/
def dirTName : DirT → String
  | DirT.mk n _ _ _ _ _ _ => n

/-- `process_file`: stat and read the file (any exception is caught and
yields `False`), call `insert_file`, ignore its boolean result, report
success. -/
def process_file (env : Env) (db : DB) (path : String) (f : FileNode) : DB × Bool :=
  if f.readRaises then (db, false)
  else
    let r := insert_fileTx (fun _ => f.dbRaises) env db path f.content f.mtime f.ctime f.fsize
    (r.1, true)

/-- The per-directory file loop of `scan_directory`: skip dotfiles and
unsupported extensions, count the files `process_file` reports. -/
def walkFiles (env : Env) (db : DB) (dirPath : String) (fs : List FileNode) : DB × Nat :=
  fs.foldl
    (fun (acc : DB × Nat) f =>
      if f.name.data.head? == some '.' then acc
      else if SUPPORTED_EXTS.contains (pyLower (splitextExt f.name)) then
        let r := process_file env acc.1 (pathJoin dirPath f.name) f
        (r.1, acc.2 + (if r.2 then 1 else 0))
      else acc)
    (db, 0)

/-- The `os.walk` loop of `scan_directory` (top-down, dot directories
pruned): index the directory itself unless `os.stat` raises, index its
files, recurse. Fuel bounds the recursion depth; fuel of at least the
tree height makes the model coincide with the full walk. Returns the
database, the success count, and the visited folder paths. -/
def walkDir (env : Env) : Nat → DB → String → DirT → DB × Nat × List String
  | 0, db, _, _ => (db, 0, [])
  | fuel + 1, db, path, DirT.mk _ mtime ctime statRaises dbR fileEntries subs =>
    let s1 : DB × List String :=
      if statRaises then (db, [])
      else ((insert_folderTx (fun _ => dbR) env db path mtime ctime).1, [path])
    let s2 := walkFiles env s1.1 path fileEntries
    let s3 := subs.foldl
      (fun (acc : DB × Nat × List String) d =>
        if (dirTName d).data.head? == some '.' then acc
        else
          let r := walkDir env fuel acc.1 (pathJoin path (dirTName d)) d
          (r.1, acc.2.1 + r.2.1, acc.2.2 ++ r.2.2))
      (s2.1, s2.2, s1.2)
    s3

/-- Stable descending insertion by length for
`sort(key=len, reverse=True)`. -/
def insertByLenDesc (x : String) : List String → List String
  | [] => [x]
  | y :: ys => if x.length > y.length then x :: y :: ys else y :: insertByLenDesc x ys

/-- Python `list.sort(key=len, reverse=True)` (stable). -/
def sortByLenDesc (l : List String) : List String :=
  l.foldl (fun acc x => insertByLenDesc x acc) []

/-- `scan_directory`: register the root, walk the tree, then aggregate
the visited folders in descending path length order; returns the new
database and the count of files `process_file` reported as indexed. -/
def scan_directory (env : Env) (fuel : Nat) (db : DB) (root_path : String) (tree : DirT) :
    DB × Nat :=
  let db0 := add_index_root db root_path
  let r := walkDir env fuel db0 root_path tree
  let folders := sortByLenDesc r.2.2
  let db2 := folders.foldl (fun d f => update_folder_aggregate d f 60) r.1
  (db2, r.2.1)

/-! ## Concrete collaborators and states used by witnesses -/

/-- A trivial environment for concrete evaluations. -/
def envNull : Env := ⟨fun _ => "", "", fun _ => none⟩

/-- The empty database. -/
def dbEmpty : DB := ⟨[], [], []⟩

/-! ## Shared lemmas -/

theorem filter_ne_filter_eq {α : Type} (f : α → String) (p : String) (l : List α) :
    (l.filter (fun r => f r != p)).filter (fun r => f r == p) = [] := by
  induction l with
  | nil => rfl
  | cons a t ih =>
    by_cases h : f a = p <;> simp [List.filter_cons, h, ih]

theorem filter_eq_after_ne {α : Type} (f : α → String) (p q : String) (l : List α)
    (hne : p ≠ q) :
    (l.filter (fun r => f r != q)).filter (fun r => f r == p) =
      l.filter (fun r => f r == p) := by
  induction l with
  | nil => rfl
  | cons a t ih =>
    by_cases h : f a = q
    · simp [List.filter_cons, h, Ne.symm hne, ih]
    · by_cases h2 : f a = p <;> simp [List.filter_cons, h, h2, ih, hne, Ne.symm hne]

/-! ## C9: result cap -/

/-- C9: for every query and every optional root scope, the list returned
by a search call contains at most 20 entries, direct matches and bubbled
ancestor folders combined — the pure tail of `search_index` truncates the
combined list to 20 whatever rows the text engine produced. -/
theorem search_result_cap (results : List SRow) (reg : List FileRow) (roots : List String)
    (root_path : Option String) :
    (search_index_post results reg roots root_path).length ≤ 20 := by
  unfold search_index_post
  dsimp only
  split
  · exact List.length_take_le _ _
  · exact List.length_take_le _ _

/-! ## C6: best root resolution -/

theorem bestFold_some (path : String) (roots : List String) :
    ∀ (acc : Option String) (b : String), roots.foldl (bestStep path) acc = some b →
      (acc = some b ∨ (b ∈ roots ∧ rootMatches path b = true)) ∧
      (∀ a, acc = some a → a.length ≤ b.length) ∧
      (∀ r ∈ roots, rootMatches path r = true → r.length ≤ b.length) := by
  induction roots with
  | nil =>
    intro acc b h
    refine ⟨Or.inl h, ?_, ?_⟩
    · intro a ha; rw [ha] at h; cases h; exact le_refl _
    · intro r hr; cases hr
  | cons r rs ih =>
    intro acc b h
    simp only [List.foldl_cons] at h
    obtain ⟨h1, h2, h3⟩ := ih (bestStep path acc r) b h
    by_cases hm : rootMatches path r = true
    · cases acc with
      | none =>
        have hstep : bestStep path none r = some r := by simp [bestStep, hm]
        rw [hstep] at h1 h2
        refine ⟨?_, ?_, ?_⟩
        · rcases h1 with h1 | h1
          · injection h1 with h1
            subst h1
            exact Or.inr ⟨List.mem_cons_self _ _, hm⟩
          · exact Or.inr ⟨List.mem_cons_of_mem _ h1.1, h1.2⟩
        · intro a ha; cases ha
        · intro x hx hxm
          rcases List.mem_cons.mp hx with hx | hx
          · subst hx; exact h2 x rfl
          · exact h3 x hx hxm
      | some a0 =>
        by_cases hlen : r.length > a0.length
        · have hstep : bestStep path (some a0) r = some r := by
            simp [bestStep, hm, hlen]
          rw [hstep] at h1 h2
          refine ⟨?_, ?_, ?_⟩
          · rcases h1 with h1 | h1
            · injection h1 with h1
              subst h1
              exact Or.inr ⟨List.mem_cons_self _ _, hm⟩
            · exact Or.inr ⟨List.mem_cons_of_mem _ h1.1, h1.2⟩
          · intro a ha
            injection ha with ha; subst ha
            have := h2 r rfl
            omega
          · intro x hx hxm
            rcases List.mem_cons.mp hx with hx | hx
            · subst hx; exact h2 x rfl
            · exact h3 x hx hxm
        · have hstep : bestStep path (some a0) r = some a0 := by
            simp [bestStep, hm, hlen]
          rw [hstep] at h1 h2
          refine ⟨?_, ?_, ?_⟩
          · rcases h1 with h1 | h1
            · exact Or.inl h1
            · exact Or.inr ⟨List.mem_cons_of_mem _ h1.1, h1.2⟩
          · intro a ha; injection ha with ha; subst ha; exact h2 a0 rfl
          · intro x hx hxm
            rcases List.mem_cons.mp hx with hx | hx
            · subst hx
              have ha0 := h2 a0 rfl
              omega
            · exact h3 x hx hxm
    · have hstep : bestStep path acc r = acc := by
        simp [bestStep, hm]
      rw [hstep] at h1 h2
      refine ⟨?_, h2, ?_⟩
      · rcases h1 with h1 | h1
        · exact Or.inl h1
        · exact Or.inr ⟨List.mem_cons_of_mem _ h1.1, h1.2⟩
      · intro x hx hxm
        rcases List.mem_cons.mp hx with hx | hx
        · subst hx; exact absurd hxm hm
        · exact h3 x hx hxm

theorem bestFold_none (path : String) (roots : List String) :
    ∀ acc, roots.foldl (bestStep path) acc = none →
      acc = none ∧ ∀ r ∈ roots, rootMatches path r = false := by
  induction roots with
  | nil =>
    intro acc h
    exact ⟨h, by intro r hr; cases hr⟩
  | cons r rs ih =>
    intro acc h
    simp only [List.foldl_cons] at h
    obtain ⟨h1, h2⟩ := ih _ h
    by_cases hm : rootMatches path r = true
    · exfalso
      cases acc with
      | none => simp [bestStep, hm] at h1
      | some a0 =>
        rw [bestStep] at h1
        rw [hm] at h1
        simp only [if_true] at h1
        by_cases hlen : r.length > a0.length <;> simp [hlen] at h1
    · have hstep : bestStep path acc r = acc := by simp [bestStep, hm]
      rw [hstep] at h1
      refine ⟨h1, ?_⟩
      intro x hx
      rcases List.mem_cons.mp hx with hx | hx
      · subst hx; exact eq_false_of_ne_true hm
      · exact h2 x hx

/-- C6: `bestRootFor` returns the longest stored root that is a
boundary-safe ancestor of the path (`path == r` or `path` starts with
`r` followed by the separator); since every returned root satisfies
`rootMatches`, a root that is merely a raw string prefix — such as
`/root` against `/root2/x` — is never returned, and when no root
matches, nothing is returned. -/
theorem best_root_longest (roots : List String) (path : String) :
    (∀ b, get_best_root_for_path roots path = some b →
       b ∈ roots ∧ rootMatches path b = true ∧
       ∀ r ∈ roots, rootMatches path r = true → r.length ≤ b.length) ∧
    (get_best_root_for_path roots path = none →
       ∀ r ∈ roots, rootMatches path r = false) := by
  constructor
  · intro b h
    obtain ⟨h1, _, h3⟩ := bestFold_some path roots none b h
    rcases h1 with h1 | ⟨hb1, hb2⟩
    · cases h1
    · exact ⟨hb1, hb2, h3⟩
  · intro h
    exact (bestFold_none path roots none h).2

/-- Witness for C6 at concrete inputs: among roots `/a` and `/a/b` the
longest ancestor of `/a/b/c.txt` is `/a/b`, and the raw-prefix root
`/root` is not an ancestor of `/root2/x`, so nothing is returned. -/
theorem best_root_longest_witness :
    (get_best_root_for_path ["/a", "/a/b"] "/a/b/c.txt" = some "/a/b" ∧
      "/a/b" ∈ ["/a", "/a/b"] ∧ rootMatches "/a/b/c.txt" "/a/b" = true ∧
      ∀ r ∈ ["/a", "/a/b"], rootMatches "/a/b/c.txt" r = true →
        r.length ≤ "/a/b".length) ∧
    (get_best_root_for_path ["/root"] "/root2/x" = none ∧
      ∀ r ∈ ["/root"], rootMatches "/root2/x" r = false) := by
  refine ⟨⟨by decide, (best_root_longest ["/a", "/a/b"] "/a/b/c.txt").1 "/a/b" (by decide)⟩,
    by decide, (best_root_longest ["/root"] "/root2/x").2 (by decide)⟩

/-! ## C10: upsert atomicity -/

theorem insert_fileTx_eq (raises : Nat → Bool) (env : Env) (db : DB) (path content : String)
    (lm ct sz : Int) :
    insert_fileTx raises env db path content lm ct sz =
      if raises 0 || raises 1 || raises 2 || raises 3 then (db, false)
      else (insert_file env db path content lm ct sz, true) := by
  unfold insert_fileTx insert_file
  by_cases h0 : raises 0 <;> by_cases h1 : raises 1 <;> by_cases h2 : raises 2 <;>
    by_cases h3 : raises 3 <;> simp [h0, h1, h2, h3]

theorem insert_folderTx_eq (raises : Nat → Bool) (env : Env) (db : DB) (path : String)
    (lm ct : Int) :
    insert_folderTx raises env db path lm ct =
      if raises 0 || raises 1 || raises 2 || raises 3 then (db, false)
      else (insert_folder env db path lm ct, true) := by
  unfold insert_folderTx insert_folder
  by_cases h0 : raises 0 <;> by_cases h1 : raises 1 <;> by_cases h2 : raises 2 <;>
    by_cases h3 : raises 3 <;> simp [h0, h1, h2, h3]

/-- C10: when any statement inside a file or folder upsert raises, the
operation returns `False` and the database is exactly what it was before
the call, since nothing was committed; on success the committed state is
the full replacement of both rows. -/
theorem upsert_rollback (raises : Nat → Bool) (env : Env) (db : DB) (path content : String)
    (lm ct sz : Int) :
    (((insert_fileTx raises env db path content lm ct sz).2 = false →
        (insert_fileTx raises env db path content lm ct sz).1 = db) ∧
      ((raises 0 || raises 1 || raises 2 || raises 3) = true →
        (insert_fileTx raises env db path content lm ct sz).2 = false) ∧
      ((insert_fileTx raises env db path content lm ct sz).2 = true →
        (insert_fileTx raises env db path content lm ct sz).1 =
          insert_file env db path content lm ct sz)) ∧
    (((insert_folderTx raises env db path lm ct).2 = false →
        (insert_folderTx raises env db path lm ct).1 = db) ∧
      ((raises 0 || raises 1 || raises 2 || raises 3) = true →
        (insert_folderTx raises env db path lm ct).2 = false) ∧
      ((insert_folderTx raises env db path lm ct).2 = true →
        (insert_folderTx raises env db path lm ct).1 = insert_folder env db path lm ct)) := by
  rw [insert_fileTx_eq, insert_folderTx_eq]
  by_cases h : (raises 0 || raises 1 || raises 2 || raises 3) = true
  · simp [h]
  · simp only [Bool.not_eq_true] at h
    simp [h]

/-- Witness for C10: a failure at the Registry-insert statement leaves
the empty database unchanged and reports failure, for both upserts. -/
theorem upsert_rollback_witness :
    ((insert_fileTx (fun i => i == 1) envNull dbEmpty "/a.txt" "c" 0 0 1).2 = false ∧
      (insert_fileTx (fun i => i == 1) envNull dbEmpty "/a.txt" "c" 0 0 1).1 = dbEmpty) ∧
    ((insert_folderTx (fun i => i == 1) envNull dbEmpty "/d" 0 0).2 = false ∧
      (insert_folderTx (fun i => i == 1) envNull dbEmpty "/d" 0 0).1 = dbEmpty) := by
  have h := upsert_rollback (fun i => i == 1) envNull dbEmpty "/a.txt" "c" 0 0 1
  have hf := h.1.2.1 (by decide)
  have h2 := upsert_rollback (fun i => i == 1) envNull dbEmpty "/d" "c" 0 0 1
  have hg := h2.2.2.1 (by decide)
  exact ⟨⟨hf, h.1.1 hf⟩, hg, h2.2.1 hg⟩

/-! ## C2: idempotent re-indexing -/

/-- C2: re-indexing an already-indexed path leaves exactly one Registry
row and exactly one Content-Index row for it, and the previously stored
summary and tech stack are carried forward unchanged into both
replacement rows (the Content-Index copies them with `None` rendered as
the empty string, as `summary or ""` does). -/
theorem reindex_idempotent (env : Env) (db : DB) (path content : String)
    (lm ct sz : Int) (r : FileRow)
    (hfind : db.files.find? (fun x => x.path == path) = some r) :
    ((insert_file env db path content lm ct sz).files.filter
        (fun x => x.path == path)).length = 1 ∧
    ((insert_file env db path content lm ct sz).file_index.filter
        (fun i => i.path == path)).length = 1 ∧
    (insert_file env db path content lm ct sz).files.filter (fun x => x.path == path) =
      [⟨path, "file", extFromPath path, lm, ct, sz, env.nowStr, r.summary, r.tech_stack⟩] ∧
    (insert_file env db path content lm ct sz).file_index.filter (fun i => i.path == path) =
      [⟨path, "file", extFromPath path, content, r.summary.getD "", r.tech_stack.getD "",
        env.fmtDate ct, env.fmtDate lm⟩] := by
  unfold insert_file
  rw [hfind]
  simp only [List.filter_append, filter_ne_filter_eq (fun x : FileRow => x.path),
    filter_ne_filter_eq (fun i : IndexRow => i.path), List.nil_append, Option.bind_eq_bind]
  simp [List.filter]

/-- Witness for C2: re-indexing a path that already carries a summary and
a tech stack preserves both in the single surviving row pair. -/
theorem reindex_idempotent_witness :
    (insert_file envNull
        ⟨[⟨"/a.txt", "file", "txt", 0, 0, 1, "", some "s0", some "t0"⟩],
         [⟨"/a.txt", "file", "txt", "old", "s0", "t0", "", ""⟩], []⟩
        "/a.txt" "new" 2 3 4).files.filter (fun x => x.path == "/a.txt") =
      [⟨"/a.txt", "file", "txt", 2, 3, 4, "", some "s0", some "t0"⟩] ∧
    (insert_file envNull
        ⟨[⟨"/a.txt", "file", "txt", 0, 0, 1, "", some "s0", some "t0"⟩],
         [⟨"/a.txt", "file", "txt", "old", "s0", "t0", "", ""⟩], []⟩
        "/a.txt" "new" 2 3 4).file_index.filter (fun i => i.path == "/a.txt") =
      [⟨"/a.txt", "file", "txt", "new", "s0", "t0", "", ""⟩] := by
  have h := reindex_idempotent envNull
    ⟨[⟨"/a.txt", "file", "txt", 0, 0, 1, "", some "s0", some "t0"⟩],
     [⟨"/a.txt", "file", "txt", "old", "s0", "t0", "", ""⟩], []⟩
    "/a.txt" "new" 2 3 4 ⟨"/a.txt", "file", "txt", 0, 0, 1, "", some "s0", some "t0"⟩
    (by decide)
  constructor
  · rw [h.2.2.1]
    rfl
  · rw [h.2.2.2]
    rfl

/-! ## C3: one Content-Index row per Registry path -/

/-- Number of Content-Index rows stored for a path. -/
def cntIdx (fi : List IndexRow) (p : String) : Nat :=
  (fi.filter (fun i => i.path == p)).length

/-- The pairing invariant: Registry paths are unique (the `files` primary
key) and every Registry path has exactly one Content-Index row. -/
def WfDB (db : DB) : Prop :=
  (db.files.map (fun r => r.path)).Nodup ∧
  ∀ r ∈ db.files, cntIdx db.file_index r.path = 1

instance (db : DB) : Decidable (WfDB db) := by
  unfold WfDB
  infer_instance

theorem cntIdx_replace (fi : List IndexRow) (q : String) (row : IndexRow) (p : String) :
    cntIdx (fi.filter (fun i => i.path != q) ++ [row]) p =
      (if p = q then 0 else cntIdx fi p) + (if row.path = p then 1 else 0) := by
  unfold cntIdx
  rw [List.filter_append, List.length_append]
  by_cases h : p = q
  · subst h
    rw [filter_ne_filter_eq (fun i : IndexRow => i.path) p fi]
    by_cases h2 : row.path = p <;> simp [List.filter_cons, h2]
  · rw [filter_eq_after_ne (fun i : IndexRow => i.path) p q fi h]
    by_cases h2 : row.path = p <;> simp [List.filter_cons, h2, h]

theorem cntIdx_append_single (fi : List IndexRow) (row : IndexRow) (p : String) :
    cntIdx (fi ++ [row]) p = cntIdx fi p + (if row.path = p then 1 else 0) := by
  unfold cntIdx
  rw [List.filter_append, List.length_append]
  by_cases h : row.path = p <;> simp [List.filter_cons, h]

theorem cntIdx_zero_of_find_none (fi : List IndexRow) (p : String)
    (h : fi.find? (fun i => i.path == p) = none) : cntIdx fi p = 0 := by
  unfold cntIdx
  rw [List.length_eq_zero, List.filter_eq_nil_iff]
  exact List.find?_eq_none.mp h

theorem map_path_update (l : List FileRow) (g : FileRow → FileRow)
    (hg : ∀ r, (g r).path = r.path) :
    (l.map g).map (fun r => r.path) = l.map (fun r => r.path) := by
  induction l with
  | nil => rfl
  | cons a t ih => simp [hg, ih]

theorem nodup_replace_paths (l : List FileRow) (p : String) (row : FileRow)
    (hrow : row.path = p) (h : (l.map (fun r => r.path)).Nodup) :
    (((l.filter (fun r => r.path != p)) ++ [row]).map (fun r => r.path)).Nodup := by
  rw [List.map_append]
  apply List.Nodup.append
  · exact h.sublist (List.Sublist.map _ (List.filter_sublist l))
  · simp
  · intro a ha hb
    simp only [List.map_cons, List.map_nil, List.mem_singleton] at hb
    obtain ⟨r, hr, hra⟩ := List.mem_map.mp ha
    have := (List.mem_filter.mp hr).2
    rw [bne_iff_ne] at this
    exact this (by rw [hra, hb, hrow])

theorem cntIdx_map (l : List FileRow) (toIdx : FileRow → IndexRow)
    (h : ∀ r, (toIdx r).path = r.path) (p : String) :
    cntIdx (l.map toIdx) p = (l.filter (fun r => r.path == p)).length := by
  unfold cntIdx
  induction l with
  | nil => rfl
  | cons a t ih =>
    by_cases ha : a.path = p <;> simp [List.filter_cons, h, ha, ih]

theorem count_path_one (l : List FileRow) (hnd : (l.map (fun r => r.path)).Nodup)
    (r0 : FileRow) (h0 : r0 ∈ l) :
    (l.filter (fun r => r.path == r0.path)).length = 1 := by
  induction l with
  | nil => cases h0
  | cons a t ih =>
    rw [List.map_cons, List.nodup_cons] at hnd
    rcases List.mem_cons.mp h0 with h0 | h0
    · subst h0
      have hnil : t.filter (fun r => r.path == r0.path) = [] := by
        rw [List.filter_eq_nil_iff]
        intro x hx hbe
        exact hnd.1 ((beq_iff_eq.mp hbe) ▸ List.mem_map_of_mem (fun r => r.path) hx)
      simp [List.filter_cons, hnil]
    · have hne : (a.path == r0.path) = false := by
        simp only [beq_eq_false_iff_ne]
        intro he
        exact hnd.1 (he ▸ List.mem_map_of_mem (fun r => r.path) h0)
      simp [List.filter_cons, hne, ih hnd.2 h0]

/-- Well-formedness is preserved by the replace-both-rows shape shared by
`insert_file`, `insert_folder` and the Content-Index half of
`update_folder_aggregate`. -/
theorem wf_replace (db : DB) (p : String) (newReg : FileRow) (newIdx : IndexRow)
    (roots : List String) (hr : newReg.path = p) (hi : newIdx.path = p)
    (hwf : WfDB db) :
    WfDB ⟨db.files.filter (fun r => r.path != p) ++ [newReg],
          db.file_index.filter (fun i => i.path != p) ++ [newIdx], roots⟩ := by
  constructor
  · exact nodup_replace_paths db.files p newReg hr hwf.1
  · intro r2 hr2
    rcases List.mem_append.mp hr2 with h2 | h2
    · have hmem := List.mem_filter.mp h2
      have hne : r2.path ≠ p := bne_iff_ne.mp hmem.2
      show cntIdx (db.file_index.filter (fun i => i.path != p) ++ [newIdx]) r2.path = 1
      rw [cntIdx_replace, if_neg hne, hi, if_neg (fun he => hne he.symm)]
      simp only [Nat.add_zero]
      exact hwf.2 r2 hmem.1
    · have h2 : r2 = newReg := List.mem_singleton.mp h2
      subst h2
      show cntIdx (db.file_index.filter (fun i => i.path != p) ++ [newIdx]) r2.path = 1
      rw [cntIdx_replace, if_pos hr, hi, if_pos hr.symm]

theorem wf_insert_file (env : Env) (db : DB) (path content : String) (lm ct sz : Int)
    (hwf : WfDB db) : WfDB (insert_file env db path content lm ct sz) :=
  wf_replace db path _ _ db.index_roots rfl rfl hwf

theorem wf_insert_folder (env : Env) (db : DB) (path : String) (lm ct : Int)
    (hwf : WfDB db) : WfDB (insert_folder env db path lm ct) :=
  wf_replace db path _ _ db.index_roots rfl rfl hwf

theorem wf_update_summary (db : DB) (path new_summary : String)
    (hwf : WfDB db) : WfDB (update_summary db path new_summary) := by
  unfold update_summary
  have hg : ∀ r : FileRow,
      ((fun r => if r.path == path then { r with summary := some new_summary } else r) r).path
        = r.path := by
    intro r
    by_cases h : r.path = path <;> simp [h]
  cases hfind : db.file_index.find? (fun r => r.path == path) with
  | some row =>
    dsimp only
    constructor
    · rw [map_path_update _ _ hg]
      exact hwf.1
    · intro r2 hr2
      obtain ⟨r0, hr0, hr0e⟩ := List.mem_map.mp hr2
      have hp : r2.path = r0.path := by rw [← hr0e]; exact hg r0
      rw [hp]
      rw [show (⟨path, row.kind, row.ext, row.content, new_summary, row.tech_stack,
            row.created_str, row.modified_str⟩ : IndexRow) =
          { path := path, kind := row.kind, ext := row.ext, content := row.content,
            summary := new_summary, tech_stack := row.tech_stack,
            created_str := row.created_str, modified_str := row.modified_str } from rfl]
      rw [cntIdx_replace]
      by_cases h : r0.path = path
      · simp [h]
      · simp [h, Ne.symm h, hwf.2 r0 hr0]
  | none =>
    dsimp only
    constructor
    · rw [map_path_update _ _ hg]
      exact hwf.1
    · intro r2 hr2
      obtain ⟨r0, hr0, hr0e⟩ := List.mem_map.mp hr2
      have hp : r2.path = r0.path := by rw [← hr0e]; exact hg r0
      rw [hp]
      have hne : r0.path ≠ path := by
        intro he
        have h1 := hwf.2 r0 hr0
        rw [he] at h1
        rw [cntIdx_zero_of_find_none _ _ hfind] at h1
        cases h1
      rw [cntIdx_append_single]
      simp [Ne.symm hne, hwf.2 r0 hr0]

theorem wf_update_folder_aggregate (db : DB) (folder_path : String) (mc : Nat)
    (hwf : WfDB db) : WfDB (update_folder_aggregate db folder_path mc) := by
  unfold update_folder_aggregate
  dsimp only
  constructor
  · rw [map_path_update]
    · exact hwf.1
    · intro r
      by_cases h : r.path = folder_path <;> simp [h]
  · intro r2 hr2
    obtain ⟨r0, hr0, hr0e⟩ := List.mem_map.mp hr2
    have hp : r2.path = r0.path := by
      rw [← hr0e]
      by_cases h : r0.path = folder_path <;> simp [h]
    rw [hp, cntIdx_replace]
    by_cases h : r0.path = folder_path
    · simp [h]
    · simp [h, Ne.symm h, hwf.2 r0 hr0]

theorem wf_rebuild (env : Env) (db : DB) (hwf : WfDB db) :
    WfDB (rebuild_fts_index env db) := by
  unfold rebuild_fts_index
  dsimp only
  constructor
  · exact hwf.1
  · intro r2 hr2
    rw [cntIdx_map _ _ (fun r => rfl) r2.path]
    exact count_path_one db.files hwf.1 r2 hr2

/-- C3: after every storage operation — file upsert, folder upsert,
summary update, folder-aggregate update, index rebuild — each Registry
path still has exactly one Content-Index row; for the two transactional
upserts the same holds whatever statements raise, because a failed
transaction is rolled back as one committed unit of work (both rows are
rewritten together or not at all). -/
theorem registry_index_lockstep (env : Env) (db : DB) (path content : String)
    (lm ct sz : Int) (new_summary folder_path : String) (mc : Nat)
    (hwf : WfDB db) :
    WfDB (insert_file env db path content lm ct sz) ∧
    WfDB (insert_folder env db path lm ct) ∧
    WfDB (update_summary db path new_summary) ∧
    WfDB (update_folder_aggregate db folder_path mc) ∧
    WfDB (rebuild_fts_index env db) ∧
    (∀ raises : Nat → Bool, WfDB (insert_fileTx raises env db path content lm ct sz).1) ∧
    (∀ raises : Nat → Bool, WfDB (insert_folderTx raises env db path lm ct).1) := by
  refine ⟨wf_insert_file env db path content lm ct sz hwf,
    wf_insert_folder env db path lm ct hwf,
    wf_update_summary db path new_summary hwf,
    wf_update_folder_aggregate db folder_path mc hwf,
    wf_rebuild env db hwf, ?_, ?_⟩
  · intro raises
    rw [insert_fileTx_eq]
    by_cases h : (raises 0 || raises 1 || raises 2 || raises 3) = true
    · simpa [h] using hwf
    · simp only [Bool.not_eq_true] at h
      simpa [h] using wf_insert_file env db path content lm ct sz hwf
  · intro raises
    rw [insert_folderTx_eq]
    by_cases h : (raises 0 || raises 1 || raises 2 || raises 3) = true
    · simpa [h] using hwf
    · simp only [Bool.not_eq_true] at h
      simpa [h] using wf_insert_folder env db path lm ct hwf

/-- Witness for C3: a concrete well-formed one-folder database stays
well-formed across a file upsert and a summary update. -/
theorem registry_index_lockstep_witness :
    WfDB (insert_file envNull
      ⟨[⟨"/a", "folder", "", 0, 0, 0, "", none, none⟩],
       [⟨"/a", "folder", "", "", "", "", "", ""⟩], []⟩ "/a/b.txt" "c" 0 0 1) ∧
    WfDB (update_summary
      ⟨[⟨"/a", "folder", "", 0, 0, 0, "", none, none⟩],
       [⟨"/a", "folder", "", "", "", "", "", ""⟩], []⟩ "/a" "s") := by
  have h := registry_index_lockstep envNull
    ⟨[⟨"/a", "folder", "", 0, 0, 0, "", none, none⟩],
     [⟨"/a", "folder", "", "", "", "", "", ""⟩], []⟩
    "/a/b.txt" "c" 0 0 1 "s" "/a" 60 (by decide)
  have h2 := registry_index_lockstep envNull
    ⟨[⟨"/a", "folder", "", 0, 0, 0, "", none, none⟩],
     [⟨"/a", "folder", "", "", "", "", "", ""⟩], []⟩
    "/a" "c" 0 0 1 "s" "/a" 60 (by decide)
  exact ⟨h.1, h2.2.2.1⟩

/-! ## C5 and C7: intent resolution -/

theorem find?_append_of_none {α : Type} (p : α → Bool) (l1 l2 : List α)
    (h : l1.find? p = none) : (l1 ++ l2).find? p = l2.find? p := by
  induction l1 with
  | nil => rfl
  | cons a t ih =>
    cases hpa : p a with
    | true => rw [List.find?_cons_of_pos _ hpa] at h; cases h
    | false =>
      have hpa2 : ¬p a = true := by simp [hpa]
      rw [List.find?_cons_of_neg _ hpa2] at h
      rw [List.cons_append, List.find?_cons_of_neg _ hpa2]
      exact ih h

theorem cache_filter_find_none (c : List (String × String × Nat)) (key : String) :
    (c.filter (fun x => x.1 != key)).find? (fun e => e.1 == key) = none := by
  rw [List.find?_eq_none]
  intro x hx
  have hne := (List.mem_filter.mp hx).2
  rw [bne_iff_ne] at hne
  simp [hne]

/-- Reading the key just written within the TTL hits and returns the
stored value without touching the cache. -/
theorem cache_get_after_set (c : List (String × String × Nat)) (now now2 : Nat)
    (key v : String) (h : now2 ≤ now + INTENT_CACHE_TTL) :
    cache_get (cache_set c now key v) now2 key = (some v, cache_set c now key v) := by
  unfold cache_get cache_set
  rw [find?_append_of_none _ _ _ (cache_filter_find_none c key)]
  rw [List.find?_cons_of_pos _ (by simp)]
  dsimp only
  rw [if_neg (by omega)]

theorem parse_cache_hit (c : List (String × String × Nat)) (now : Nat)
    (ai : Except String String) (jl : String → Except String Intent)
    (tT yT : String) (dP : String → Option String) (q v : String)
    (hhit : (cache_get c now (clean_string (pyLower q))).1 = some v) :
    parse_search_intent c now ai jl tT yT dP q =
      ⟨v, (cache_get c now (clean_string (pyLower q))).2, false⟩ := by
  unfold parse_search_intent
  dsimp only
  rw [hhit]

theorem parse_rule_fires (c : List (String × String × Nat)) (now : Nat)
    (ai : Except String String) (jl : String → Except String Intent)
    (tT yT : String) (dP : String → Option String) (q ruled : String)
    (hmiss : (cache_get c now (clean_string (pyLower q))).1 = none)
    (hrule : rule_based_intent q = some ruled) :
    parse_search_intent c now ai jl tT yT dP q =
      ⟨ruled, cache_set (cache_get c now (clean_string (pyLower q))).2 now
        (clean_string (pyLower q)) ruled, false⟩ := by
  unfold parse_search_intent
  dsimp only
  rw [hmiss, hrule]

theorem parse_ai_error (c : List (String × String × Nat)) (now : Nat) (e : String)
    (jl : String → Except String Intent) (tT yT : String) (dP : String → Option String)
    (q : String)
    (hmiss : (cache_get c now (clean_string (pyLower q))).1 = none)
    (hrule : rule_based_intent q = none) :
    parse_search_intent c now (Except.error e) jl tT yT dP q =
      ⟨clean_string q, cache_set (cache_get c now (clean_string (pyLower q))).2 now
        (clean_string (pyLower q)) (clean_string q), true⟩ := by
  unfold parse_search_intent
  dsimp only
  rw [hmiss, hrule]

theorem parse_no_brace (c : List (String × String × Nat)) (now : Nat) (s : String)
    (jl : String → Except String Intent) (tT yT : String) (dP : String → Option String)
    (q : String)
    (hmiss : (cache_get c now (clean_string (pyLower q))).1 = none)
    (hrule : rule_based_intent q = none)
    (hbr : extractBraceBlock (cleanResultOf s) = none) :
    parse_search_intent c now (Except.ok s) jl tT yT dP q =
      ⟨clean_string q, cache_set (cache_get c now (clean_string (pyLower q))).2 now
        (clean_string (pyLower q)) (clean_string q), true⟩ := by
  unfold parse_search_intent
  dsimp only
  rw [hmiss, hrule, hbr]

theorem parse_repair_empty (c : List (String × String × Nat)) (now : Nat)
    (s blob msg : String) (jl : String → Except String Intent) (tT yT : String)
    (dP : String → Option String) (q : String)
    (hmiss : (cache_get c now (clean_string (pyLower q))).1 = none)
    (hrule : rule_based_intent q = none)
    (hbr : extractBraceBlock (cleanResultOf s) = some blob)
    (hjl : jl blob = Except.error msg)
    (hbuild : build_fts_query tT yT dP (regex_extract_intent (cleanResultOf s)) q = "") :
    parse_search_intent c now (Except.ok s) jl tT yT dP q =
      ⟨clean_string q, cache_set (cache_get c now (clean_string (pyLower q))).2 now
        (clean_string (pyLower q)) (clean_string q), true⟩ := by
  unfold parse_search_intent
  dsimp only
  rw [hmiss, hrule, hbr]
  dsimp only
  rw [hjl]
  dsimp only
  rw [hbuild]
  rfl

theorem parse_build_empty (c : List (String × String × Nat)) (now : Nat)
    (s blob : String) (data : Intent) (jl : String → Except String Intent) (tT yT : String)
    (dP : String → Option String) (q : String)
    (hmiss : (cache_get c now (clean_string (pyLower q))).1 = none)
    (hrule : rule_based_intent q = none)
    (hbr : extractBraceBlock (cleanResultOf s) = some blob)
    (hjl : jl blob = Except.ok data)
    (hbuild : build_fts_query tT yT dP data q = "") :
    parse_search_intent c now (Except.ok s) jl tT yT dP q =
      ⟨clean_string q, cache_set (cache_get c now (clean_string (pyLower q))).2 now
        (clean_string (pyLower q)) (clean_string q), true⟩ := by
  unfold parse_search_intent
  dsimp only
  rw [hmiss, hrule, hbr]
  dsimp only
  rw [hjl]
  dsimp only
  rw [hbuild]
  rfl

/-- C5 (amended): provided the intent cache holds no entry for the
normalized key when the call arrives — in particular on a first
resolution against a fresh cache — resolving "files from 2024" yields
`(created_str:"2024" OR modified_str:"2024")` (the spec names these
columns `created`/`modified`) through the deterministic rule tier,
without invoking the collaborator, and every repeated resolution within
the 120-second TTL returns the identical filter string, again without
invoking the collaborator. The unconditional claim fails: a different
raw query with the same normalized cache key can populate the cache
first, after which the cache tier answers — see the counterexample. -/
theorem date_rule_deterministic (c : List (String × String × Nat)) (now : Nat)
    (ai : Except String String) (jl : String → Except String Intent)
    (tT yT : String) (dP : String → Option String)
    (hmiss : (cache_get c now "files from 2024").1 = none) :
    (parse_search_intent c now ai jl tT yT dP "files from 2024").filter =
      "(created_str:\"2024\" OR modified_str:\"2024\")" ∧
    (parse_search_intent c now ai jl tT yT dP "files from 2024").aiCalled = false ∧
    ∀ (now2 : Nat) (ai2 : Except String String) (jl2 : String → Except String Intent)
      (tT2 yT2 : String) (dP2 : String → Option String),
      now2 ≤ now + INTENT_CACHE_TTL →
      (parse_search_intent (parse_search_intent c now ai jl tT yT dP "files from 2024").cache
          now2 ai2 jl2 tT2 yT2 dP2 "files from 2024").filter =
        "(created_str:\"2024\" OR modified_str:\"2024\")" ∧
      (parse_search_intent (parse_search_intent c now ai jl tT yT dP "files from 2024").cache
          now2 ai2 jl2 tT2 yT2 dP2 "files from 2024").aiCalled = false := by
  have hmiss2 : (cache_get c now (clean_string (pyLower "files from 2024"))).1 = none := by
    exact hmiss
  have h1 := parse_rule_fires c now ai jl tT yT dP "files from 2024"
    "(created_str:\"2024\" OR modified_str:\"2024\")" hmiss2 rfl
  rw [h1]
  refine ⟨rfl, rfl, ?_⟩
  intro now2 ai2 jl2 tT2 yT2 dP2 hle
  have hhit : (cache_get (cache_set (cache_get c now (clean_string (pyLower "files from 2024"))).2
      now (clean_string (pyLower "files from 2024"))
      "(created_str:\"2024\" OR modified_str:\"2024\")") now2
      (clean_string (pyLower "files from 2024"))).1 =
      some "(created_str:\"2024\" OR modified_str:\"2024\")" := by
    rw [cache_get_after_set _ _ _ _ _ hle]
  have h2 := parse_cache_hit _ now2 ai2 jl2 tT2 yT2 dP2 "files from 2024" _ hhit
  rw [h2]
  exact ⟨rfl, rfl⟩

/-- The cache state the code itself reaches after resolving the raw query
"files.from.2024": it normalizes to the key "files from 2024", matches no
rule (the rule regex needs whitespace between the words), and with the
collaborator erroring it caches the free-text fallback under that key. -/
def poisonedCache : List (String × String × Nat) :=
  (parse_search_intent [] 0 (Except.error "timeout") (fun _ => Except.error "") "" ""
    (fun _ => none) "files.from.2024").cache

/-- C5 counterexample: with that reachable cache, resolving
"files from 2024" inside the TTL returns the cached free-text value
"files from 2024" instead of the rule filter, so the claim is false for
that invocation. -/
theorem date_rule_counterexample :
    (parse_search_intent poisonedCache 0 (Except.error "x") (fun _ => Except.error "") "" ""
       (fun _ => none) "files from 2024").filter = "files from 2024" ∧
    "files from 2024" ≠ "(created_str:\"2024\" OR modified_str:\"2024\")" := by
  exact ⟨rfl, by decide⟩

/-- Witness for C5 at the fresh cache. -/
theorem date_rule_deterministic_witness :
    (cache_get [] 0 "files from 2024").1 = none ∧
    (parse_search_intent [] 0 (Except.error "e") (fun _ => Except.error "") "" ""
       (fun _ => none) "files from 2024").filter =
      "(created_str:\"2024\" OR modified_str:\"2024\")" := by
  exact ⟨rfl, (date_rule_deterministic [] 0 (Except.error "e") (fun _ => Except.error "")
    "" "" (fun _ => none) rfl).1⟩

/-- C7 (amended): whatever the external generator does — raising or
timing out, returning text with no JSON block, returning a block that
fails strict decoding, or returning fields from which no clause can be
built — `parse_search_intent` falls through the tiers and returns
`clean_string` of the raw query (punctuation stripped and trimmed, case
preserved) as a free-text filter; in the model all operations are total
functions, matching the source where every fallible call is wrapped in
a try block whose handler returns this fallback. The claim as stated
fails only in calling the fallback the *normalized* raw query: the
normalized form is additionally lowercased, and the fallback is not —
see the counterexample. -/
theorem intent_resolution_fallback (c : List (String × String × Nat)) (now : Nat)
    (jl : String → Except String Intent) (tT yT : String) (dP : String → Option String)
    (q : String)
    (hmiss : (cache_get c now (clean_string (pyLower q))).1 = none)
    (hrule : rule_based_intent q = none) :
    (∀ e, (parse_search_intent c now (Except.error e) jl tT yT dP q).filter =
      clean_string q) ∧
    (∀ s, extractBraceBlock (cleanResultOf s) = none →
      (parse_search_intent c now (Except.ok s) jl tT yT dP q).filter = clean_string q) ∧
    (∀ s blob msg, extractBraceBlock (cleanResultOf s) = some blob →
      jl blob = Except.error msg →
      build_fts_query tT yT dP (regex_extract_intent (cleanResultOf s)) q = "" →
      (parse_search_intent c now (Except.ok s) jl tT yT dP q).filter = clean_string q) ∧
    (∀ s blob data, extractBraceBlock (cleanResultOf s) = some blob →
      jl blob = Except.ok data →
      build_fts_query tT yT dP data q = "" →
      (parse_search_intent c now (Except.ok s) jl tT yT dP q).filter = clean_string q) := by
  refine ⟨?_, ?_, ?_, ?_⟩
  · intro e
    rw [parse_ai_error c now e jl tT yT dP q hmiss hrule]
  · intro s hbr
    rw [parse_no_brace c now s jl tT yT dP q hmiss hrule hbr]
  · intro s blob msg hbr hjl hbuild
    rw [parse_repair_empty c now s blob msg jl tT yT dP q hmiss hrule hbr hjl hbuild]
  · intro s blob data hbr hjl hbuild
    rw [parse_build_empty c now s blob data jl tT yT dP q hmiss hrule hbr hjl hbuild]

/-- C7 counterexample: the worst-case fallback preserves the original
case, so it is the cleaned raw query, not the normalized (lowercased)
one the claim names. -/
theorem intent_fallback_counterexample :
    (parse_search_intent [] 0 (Except.error "timeout") (fun _ => Except.error "") "" ""
       (fun _ => none) "BUDGET REPORT").filter = "BUDGET REPORT" ∧
    clean_string (pyLower "BUDGET REPORT") = "budget report" ∧
    ("BUDGET REPORT" : String) ≠ "budget report" := by
  exact ⟨rfl, rfl, by decide⟩

/-- Witness for C7: a collaborator timeout on a fresh cache falls back to
the cleaned raw query. -/
theorem intent_resolution_fallback_witness :
    (cache_get [] 0 (clean_string (pyLower "find the budget report"))).1 = none ∧
    rule_based_intent "find the budget report" = none ∧
    (parse_search_intent [] 0 (Except.error "x") (fun _ => Except.error "") "" ""
       (fun _ => none) "find the budget report").filter =
      clean_string "find the budget report" := by
  exact ⟨rfl, rfl,
    (intent_resolution_fallback [] 0 (fun _ => Except.error "") "" "" (fun _ => none)
      "find the budget report" rfl rfl).1 "x"⟩

/-! ## C8: scan counting and failure skipping -/

/-- The files that `scan_directory` actually counts: visible name,
supported extension, and the metadata/content read succeeded. Whether
the storage insert succeeded does not enter, because `process_file`
discards the boolean `insert_file` returns. -/
def specFileIndexed (f : FileNode) : Bool :=
  !(f.name.data.head? == some '.') &&
  SUPPORTED_EXTS.contains (pyLower (splitextExt f.name)) && !f.readRaises

/-- The readable-file count of a tree, walking only non-dot directories
to the given depth. -/
def specCountDir : Nat → DirT → Nat
  | 0, _ => 0
  | fuel + 1, DirT.mk _ _ _ _ _ fs subs =>
    (fs.filter specFileIndexed).length +
      subs.foldl (fun a d =>
        if (dirTName d).data.head? == some '.' then a else a + specCountDir fuel d) 0

theorem specSubs_fold_acc (n : Nat) (subs : List DirT) (a : Nat) :
    subs.foldl (fun a d =>
        if (dirTName d).data.head? == some '.' then a else a + specCountDir n d) a =
      a + subs.foldl (fun a d =>
        if (dirTName d).data.head? == some '.' then a else a + specCountDir n d) 0 := by
  induction subs generalizing a with
  | nil => simp
  | cons d rest ih =>
    rw [List.foldl_cons, List.foldl_cons]
    by_cases h : (dirTName d).data.head? == some '.'
    · simp only [if_pos h]
      exact ih a
    · simp only [if_neg h]
      rw [ih (a + specCountDir n d), ih (0 + specCountDir n d)]
      omega

theorem walkFiles_count (env : Env) (dirPath : String) (fs : List FileNode) :
    ∀ db : DB, (walkFiles env db dirPath fs).2 = (fs.filter specFileIndexed).length := by
  suffices haux : ∀ (acc : DB × Nat),
      (fs.foldl (fun (acc : DB × Nat) f =>
        if f.name.data.head? == some '.' then acc
        else if SUPPORTED_EXTS.contains (pyLower (splitextExt f.name)) then
          let r := process_file env acc.1 (pathJoin dirPath f.name) f
          (r.1, acc.2 + (if r.2 then 1 else 0))
        else acc) acc).2 = acc.2 + (fs.filter specFileIndexed).length by
    intro db
    unfold walkFiles
    rw [haux (db, 0)]
    simp
  induction fs with
  | nil => intro acc; simp
  | cons f t ih =>
    intro acc
    rw [List.foldl_cons]
    dsimp only
    rw [ih, List.filter_cons]
    have hstep : ((if (f.name.data.head? == some '.') = true then acc
        else if SUPPORTED_EXTS.contains (pyLower (splitextExt f.name)) = true then
          ((process_file env acc.1 (pathJoin dirPath f.name) f).1,
            acc.2 + (if (process_file env acc.1 (pathJoin dirPath f.name) f).2 = true
              then 1 else 0))
        else acc) : DB × Nat).2 = acc.2 + (if specFileIndexed f = true then 1 else 0) := by
      by_cases h1 : (f.name.data.head? == some '.') = true
      · have hsf : specFileIndexed f = false := by simp [specFileIndexed, h1]
        simp [h1, hsf]
      · by_cases h2 : SUPPORTED_EXTS.contains (pyLower (splitextExt f.name)) = true
        · by_cases h3 : f.readRaises
          · have h2m : pyLower (splitextExt f.name) ∈ SUPPORTED_EXTS := by simpa using h2
            have hsf : specFileIndexed f = false := by simp [specFileIndexed, h3]
            simp [h1, h2m, h3, hsf, process_file]
          · have h2m : pyLower (splitextExt f.name) ∈ SUPPORTED_EXTS := by simpa using h2
            have hsf : specFileIndexed f = true := by
              simp [specFileIndexed, h1, h2m, h3]
            simp [h1, h2m, h3, hsf, process_file]
        · have h2m : ¬pyLower (splitextExt f.name) ∈ SUPPORTED_EXTS := by
            intro hmem
            exact h2 (by simpa using hmem)
          have hsf : specFileIndexed f = false := by simp [specFileIndexed, h2m]
          simp [h1, h2m, hsf]
    rw [hstep]
    by_cases hsf2 : specFileIndexed f = true
    · simp only [hsf2, if_pos]
      simp
      omega
    · simp only [hsf2]
      simp [hsf2]

theorem walkDir_count (env : Env) :
    ∀ (fuel : Nat) (db : DB) (path : String) (d : DirT),
      (walkDir env fuel db path d).2.1 = specCountDir fuel d := by
  intro fuel
  induction fuel with
  | zero => intro db path d; rfl
  | succ n ih =>
    intro db path d
    cases d with
    | mk name mtime ctime statR dbR fs subs =>
      have haux : ∀ (subs2 : List DirT) (acc : DB × Nat × List String),
          (subs2.foldl (fun (acc : DB × Nat × List String) d =>
            if (dirTName d).data.head? == some '.' then acc
            else
              let r := walkDir env n acc.1 (pathJoin path (dirTName d)) d
              (r.1, acc.2.1 + r.2.1, acc.2.2 ++ r.2.2)) acc).2.1 =
          acc.2.1 + subs2.foldl (fun a d =>
            if (dirTName d).data.head? == some '.' then a else a + specCountDir n d) 0 := by
        intro subs2
        induction subs2 with
        | nil => intro acc; simp
        | cons d2 rest ih2 =>
          intro acc
          rw [List.foldl_cons, List.foldl_cons]
          by_cases h : (dirTName d2).data.head? == some '.'
          · simp only [if_pos h]
            exact ih2 acc
          · simp only [if_neg h]
            rw [ih2, specSubs_fold_acc n rest (0 + specCountDir n d2)]
            dsimp only
            rw [ih]
            omega
      show (walkDir env (n + 1) db path (DirT.mk name mtime ctime statR dbR fs subs)).2.1 =
        specCountDir (n + 1) (DirT.mk name mtime ctime statR dbR fs subs)
      unfold walkDir specCountDir
      dsimp only
      rw [haux]
      rw [walkFiles_count]

/-- C8 (amended): a per-entry failure is caught and skipped without
aborting the traversal, and `scan_directory` returns the number of
eligible files whose metadata/content read succeeded — but a file whose
storage insert failed inside `insert_file` is still counted, because
`process_file` ignores the boolean `insert_file` returns and reports
success whenever the read succeeded. Only stat/read failures exclude a
file from the count. -/
theorem scan_count_reads (env : Env) (fuel : Nat) (db : DB) (root_path : String)
    (tree : DirT) :
    (scan_directory env fuel db root_path tree).2 = specCountDir fuel tree := by
  unfold scan_directory
  dsimp only
  exact walkDir_count env fuel _ root_path tree

/-- A one-file tree whose only file reads fine but whose storage insert
raises (so `insert_file` returns `False`). -/
def treeDbFail : DirT :=
  DirT.mk "r" 0 0 false false [⟨"a.txt", "hello", 0, 0, 5, false, true⟩] []

/-- C8 counterexample: scanning that tree returns a count of 1 even
though the file was never indexed — the scan result contains no Registry
row for it — refuting the claim that a file whose indexing failed is not
counted. -/
theorem scan_count_counterexample :
    (scan_directory envNull 1 dbEmpty "/r" treeDbFail).2 = 1 ∧
    ((scan_directory envNull 1 dbEmpty "/r" treeDbFail).1.files.filter
      (fun r => r.path == "/r/a.txt")) = [] := by
  exact ⟨rfl, rfl⟩

/-! ## C4: folder aggregate split -/

theorem filter_congr_mem {α : Type} (p q : α → Bool) (l : List α)
    (h : ∀ a ∈ l, p a = q a) : l.filter p = l.filter q := by
  induction l with
  | nil => rfl
  | cons a t ih =>
    rw [List.filter_cons, List.filter_cons, h a (List.mem_cons_self a t),
      ih (fun x hx => h x (List.mem_cons_of_mem a hx))]

theorem filter_filter_comb {α : Type} (p q : α → Bool) (l : List α) :
    (l.filter p).filter q = l.filter (fun a => p a && q a) := by
  induction l with
  | nil => rfl
  | cons a t ih =>
    by_cases hp : p a = true
    · by_cases hq : q a = true <;> simp [List.filter_cons, hp, hq, ih]
    · simp [List.filter_cons, hp, ih]

/-- Spec-side definition for the refinement comparison: the DIRECT
children of a folder are the Registry rows exactly one path segment
below it (true prefix, nonempty remainder, no further separator). -/
def specDirectChildren (reg : List FileRow) (folder : String) : List FileRow :=
  reg.filter (fun r =>
    (rstripSep folder ++ "/").data.isPrefixOf r.path.data &&
    (!(r.path.data.drop (rstripSep folder ++ "/").length).isEmpty &&
     !(r.path.data.drop (rstripSep folder ++ "/").length).contains '/'))

/-- Spec-side definition for the refinement comparison: ALL descendants
of a folder (true prefix past the separator boundary). -/
def specDescendants (reg : List FileRow) (folder : String) : List FileRow :=
  reg.filter (fun r => (rstripSep folder ++ "/").data.isPrefixOf r.path.data)

theorem fetch_rec_eq_spec (reg : List FileRow) (folder : String)
    (hlike : ∀ r ∈ reg,
      (sqlLike (rstripSep folder ++ "/" ++ "%") r.path && r.path != folder) =
        (rstripSep folder ++ "/").data.isPrefixOf r.path.data) :
    fetch_children_rows reg folder true = specDescendants reg folder := by
  unfold fetch_children_rows specDescendants
  dsimp only
  exact filter_congr_mem _ _ reg hlike

theorem fetch_direct_eq_spec (reg : List FileRow) (folder : String)
    (hlike : ∀ r ∈ reg,
      (sqlLike (rstripSep folder ++ "/" ++ "%") r.path && r.path != folder) =
        (rstripSep folder ++ "/").data.isPrefixOf r.path.data) :
    fetch_children_rows reg folder false = specDirectChildren reg folder := by
  unfold fetch_children_rows specDirectChildren
  dsimp only
  rw [filter_filter_comb]
  apply filter_congr_mem
  intro r hr
  rw [hlike r hr]

/-- C4 (amended): `updateFolderAggregate` writes the statistics of the
rows its LIKE query selects; whenever SQL LIKE prefix matching agrees
with true string-prefix matching on the Registry — in particular when
the folder path is free of the LIKE wildcards `_` and `%` and no paths
differ only in ASCII letter case — those rows are exactly the DIRECT
children (one segment below) for the Registry summary/techStack and ALL
descendants for the Content-Index content/summary/techStack, and the
folder's previously stored date tokens are preserved in the rewritten
Content-Index row. Without that agreement the claim fails, because `_`
in a folder name matches any character; see the counterexample. -/
theorem folder_aggregate_split (db : DB) (folder_path : String) (mc : Nat)
    (hlike : ∀ r ∈ db.files,
      (sqlLike (rstripSep folder_path ++ "/" ++ "%") r.path && r.path != folder_path) =
        (rstripSep folder_path ++ "/").data.isPrefixOf r.path.data) :
    (update_folder_aggregate db folder_path mc).files =
      db.files.map (fun r =>
        if r.path == folder_path then
          { r with
            summary := some (compute_folder_stats
              (specDirectChildren db.files folder_path) mc).summary,
            tech_stack := some (compute_folder_stats
              (specDirectChildren db.files folder_path) mc).tech_stack }
        else r) ∧
    (update_folder_aggregate db folder_path mc).file_index =
      db.file_index.filter (fun i => i.path != folder_path) ++
        [⟨folder_path, "folder", "",
          (compute_folder_stats (specDescendants db.files folder_path) mc).content,
          (compute_folder_stats (specDescendants db.files folder_path) mc).summary,
          (compute_folder_stats (specDescendants db.files folder_path) mc).tech_stack,
          ((db.file_index.find? (fun i => i.path == folder_path)).map
            (fun i : IndexRow => i.created_str)).getD "",
          ((db.file_index.find? (fun i => i.path == folder_path)).map
            (fun i : IndexRow => i.modified_str)).getD ""⟩] := by
  unfold update_folder_aggregate
  rw [fetch_rec_eq_spec db.files folder_path hlike,
    fetch_direct_eq_spec db.files folder_path hlike]
  exact ⟨rfl, rfl⟩

/-- A Registry in which the underscore in the folder name `/r/a_b` makes
the LIKE pattern match a file of the sibling folder `/r/axb`. -/
def regLeak : List FileRow :=
  [⟨"/r/a_b", "folder", "", 0, 0, 0, "", none, none⟩,
   ⟨"/r/axb/f.py", "file", "py", 0, 0, 0, "", none, none⟩]

/-- C4 counterexample: `/r/a_b` has no children at all, yet the aggregate
written into its Registry row counts the sibling's file, because `_` in
the LIKE pattern matches the `x` of `/r/axb`. The spec-side direct-child
statistics disagree. -/
theorem folder_aggregate_counterexample :
    ((update_folder_aggregate ⟨regLeak, [], []⟩ "/r/a_b" 60).files.map
      (fun r => r.summary)) =
      [some "Folder with 1 files and 0 subfolders. Top types: py:1.", none] ∧
    specDirectChildren regLeak "/r/a_b" = [] ∧
    (compute_folder_stats ([] : List FileRow) 60).summary =
      "Folder with 0 files and 0 subfolders." ∧
    "Folder with 1 files and 0 subfolders. Top types: py:1." ≠
      "Folder with 0 files and 0 subfolders." := by
  exact ⟨rfl, rfl, rfl, by decide⟩

/-- Witness for C4 on a wildcard-free Registry, where the LIKE hypothesis
holds and the direct/recursive split is exact. -/
theorem folder_aggregate_split_witness :
    (update_folder_aggregate
        ⟨[⟨"/a", "folder", "", 0, 0, 0, "", none, none⟩,
          ⟨"/a/f.py", "file", "py", 0, 0, 0, "", none, none⟩,
          ⟨"/a/b", "folder", "", 0, 0, 0, "", none, none⟩,
          ⟨"/a/b/g.md", "file", "md", 0, 0, 0, "", none, none⟩], [], []⟩ "/a" 60).files =
      [⟨"/a", "folder", "", 0, 0, 0, "",
        some (compute_folder_stats (specDirectChildren
          [⟨"/a", "folder", "", 0, 0, 0, "", none, none⟩,
           ⟨"/a/f.py", "file", "py", 0, 0, 0, "", none, none⟩,
           ⟨"/a/b", "folder", "", 0, 0, 0, "", none, none⟩,
           ⟨"/a/b/g.md", "file", "md", 0, 0, 0, "", none, none⟩] "/a") 60).summary,
        some (compute_folder_stats (specDirectChildren
          [⟨"/a", "folder", "", 0, 0, 0, "", none, none⟩,
           ⟨"/a/f.py", "file", "py", 0, 0, 0, "", none, none⟩,
           ⟨"/a/b", "folder", "", 0, 0, 0, "", none, none⟩,
           ⟨"/a/b/g.md", "file", "md", 0, 0, 0, "", none, none⟩] "/a") 60).tech_stack⟩,
       ⟨"/a/f.py", "file", "py", 0, 0, 0, "", none, none⟩,
       ⟨"/a/b", "folder", "", 0, 0, 0, "", none, none⟩,
       ⟨"/a/b/g.md", "file", "md", 0, 0, 0, "", none, none⟩] := by
  have h := folder_aggregate_split
    ⟨[⟨"/a", "folder", "", 0, 0, 0, "", none, none⟩,
      ⟨"/a/f.py", "file", "py", 0, 0, 0, "", none, none⟩,
      ⟨"/a/b", "folder", "", 0, 0, 0, "", none, none⟩,
      ⟨"/a/b/g.md", "file", "md", 0, 0, 0, "", none, none⟩], [], []⟩ "/a" 60 (by decide)
  rw [h.1]
  rfl

/-! ## C1: root scoping and folder bubbling -/

/-- The dirname chain the ancestor walk can visit from `cur`, under the
same loop condition and fuel accounting as `walkUp`. -/
def chainList : Nat → String → List String
  | 0, _ => []
  | fuel + 1, cur =>
    if cur == "" || cur == dirname cur then []
    else cur :: chainList fuel (dirname cur)

theorem insertIfNew_mem (acc : List String) (p q : String)
    (h : q ∈ insertIfNew acc p) : q ∈ acc ∨ q = p := by
  unfold insertIfNew at h
  by_cases hp : p ∈ acc
  · rw [if_pos hp] at h
    exact Or.inl h
  · rw [if_neg hp] at h
    rcases List.mem_append.mp h with h | h
    · exact Or.inl h
    · exact Or.inr (List.mem_singleton.mp h)

theorem walkUp_sound (reg : List FileRow) (stopAt : Option String) :
    ∀ (fuel : Nat) (cur : String) (acc : List String) (q : String),
      q ∈ walkUp reg stopAt fuel cur acc →
      q ∈ acc ∨ (isFolderRowIn reg q = true ∧ q ∈ chainList fuel cur) := by
  intro fuel
  induction fuel with
  | zero =>
    intro cur acc q h
    exact Or.inl h
  | succ n ih =>
    intro cur acc q h
    unfold walkUp at h
    by_cases h1 : (cur == "" || cur == dirname cur) = true
    · rw [if_pos h1] at h
      exact Or.inl h
    · rw [if_neg h1] at h
      have hchain : chainList (n + 1) cur = cur :: chainList n (dirname cur) := by
        rw [chainList]
        rw [if_neg h1]
      by_cases h2 : (stopAt == some cur) = true
      · rw [if_pos h2] at h
        by_cases h3 : isFolderRowIn reg cur = true
        · rw [if_pos h3] at h
          rcases insertIfNew_mem acc cur q h with h4 | h4
          · exact Or.inl h4
          · subst h4
            exact Or.inr ⟨h3, by rw [hchain]; exact List.mem_cons_self _ _⟩
        · rw [if_neg h3] at h
          exact Or.inl h
      · rw [if_neg h2] at h
        dsimp only at h
        rcases ih (dirname cur) _ q h with h4 | h4
        · by_cases h3 : isFolderRowIn reg cur = true
          · rw [if_pos h3] at h4
            rcases insertIfNew_mem acc cur q h4 with h5 | h5
            · exact Or.inl h5
            · subst h5
              exact Or.inr ⟨h3, by rw [hchain]; exact List.mem_cons_self _ _⟩
          · rw [if_neg h3] at h4
            exact Or.inl h4
        · exact Or.inr ⟨h4.1, by rw [hchain]; exact List.mem_cons_of_mem _ h4.2⟩

theorem insertByLenAsc_mem (x q : String) :
    ∀ l, q ∈ insertByLenAsc x l → q = x ∨ q ∈ l := by
  intro l
  induction l with
  | nil =>
    intro h
    exact Or.inl (List.mem_singleton.mp h)
  | cons y ys ih =>
    intro h
    unfold insertByLenAsc at h
    by_cases hc : x.length < y.length
    · rw [if_pos hc] at h
      rcases List.mem_cons.mp h with h | h
      · exact Or.inl h
      · exact Or.inr h
    · rw [if_neg hc] at h
      rcases List.mem_cons.mp h with h | h
      · exact Or.inr (h ▸ List.mem_cons_self _ _)
      · rcases ih h with h2 | h2
        · exact Or.inl h2
        · exact Or.inr (List.mem_cons_of_mem _ h2)

theorem sortFold_mem :
    ∀ (l acc : List String) (q : String),
      q ∈ l.foldl (fun acc x => insertByLenAsc x acc) acc → q ∈ acc ∨ q ∈ l := by
  intro l
  induction l with
  | nil =>
    intro acc q h
    exact Or.inl h
  | cons x xs ih =>
    intro acc q h
    rw [List.foldl_cons] at h
    rcases ih _ q h with h2 | h2
    · rcases insertByLenAsc_mem x q acc h2 with h3 | h3
      · exact Or.inr (h3 ▸ List.mem_cons_self _ _)
      · exact Or.inl h3
    · exact Or.inr (List.mem_cons_of_mem _ h2)

theorem walkFold_sound (reg : List FileRow) (roots : List String) :
    ∀ (paths acc : List String) (q : String),
      q ∈ paths.foldl (fun acc p =>
        walkUp reg (get_best_root_for_path roots p) (p.length + 1) (dirname p) acc) acc →
      q ∈ acc ∨ (isFolderRowIn reg q = true ∧
        ∃ p ∈ paths, q ∈ chainList (p.length + 1) (dirname p)) := by
  intro paths
  induction paths with
  | nil =>
    intro acc q h
    exact Or.inl h
  | cons p ps ih =>
    intro acc q h
    rw [List.foldl_cons] at h
    rcases ih _ q h with h2 | h2
    · rcases walkUp_sound reg _ _ _ _ q h2 with h3 | h3
      · exact Or.inl h3
      · exact Or.inr ⟨h3.1, ⟨p, List.mem_cons_self _ _, h3.2⟩⟩
    · obtain ⟨p2, hp2m, hp2⟩ := h2.2
      exact Or.inr ⟨h2.1, ⟨p2, List.mem_cons_of_mem _ hp2m, hp2⟩⟩

/-- Everything `_get_parent_folders_for_paths` returns is a Registry
folder row lying on the dirname chain of one of the input paths. -/
theorem parents_sound (reg : List FileRow) (roots : List String) (paths : List String)
    (q : String) (hq : q ∈ get_parent_folders_for_paths reg roots paths) :
    isFolderRowIn reg q = true ∧
    ∃ p ∈ paths, q ∈ chainList (p.length + 1) (dirname p) := by
  unfold get_parent_folders_for_paths sortByLen at hq
  dsimp only at hq
  rcases sortFold_mem _ [] q hq with h | h
  · cases h
  · rcases walkFold_sound reg roots paths [] q h with h2 | h2
    · cases h2
    · exact h2

theorem bubbleFold_mem :
    ∀ (parents : List String) (acc : List SRow × List String) (r : SRow),
      r ∈ (parents.foldl bubbleStep acc).1 →
      r ∈ acc.1 ∨ ∃ fp ∈ parents, r = ⟨fp, "folder", "Contains matching files."⟩ := by
  intro parents
  induction parents with
  | nil =>
    intro acc r h
    exact Or.inl h
  | cons fp ps ih =>
    intro acc r h
    rw [List.foldl_cons] at h
    rcases ih _ r h with h2 | h2
    · unfold bubbleStep at h2
      by_cases hc : fp ∈ acc.2
      · rw [if_pos hc] at h2
        exact Or.inl h2
      · rw [if_neg hc] at h2
        rcases List.mem_append.mp h2 with h3 | h3
        · exact Or.inl h3
        · exact Or.inr ⟨fp, List.mem_cons_self _ _, List.mem_singleton.mp h3⟩
    · obtain ⟨fp2, hm, he⟩ := h2
      exact Or.inr ⟨fp2, List.mem_cons_of_mem _ hm, he⟩

theorem mem_of_take {α : Type} {l : List α} {n : Nat} {a : α}
    (h : a ∈ l.take n) : a ∈ l :=
  (List.take_sublist n l).subset h

/-- C1 (amended): with a root scope, every direct (pre-bubbling) result
is equal to or boundary-safely nested under the scope root; every
returned entry is either in scope or a bubbled ancestor folder — a
Registry folder row lying on the dirname chain of some in-scope file
match. Such bubbled ancestors are walked up to the file's best *indexed*
root, which can lie strictly above the requested scope root, so — as the
counterexample shows — a folder outside the requested scope can appear;
the claim as stated is therefore false. -/
theorem search_scope_bubbling (results : List SRow) (reg : List FileRow)
    (roots : List String) (rp : String) (r : SRow)
    (hr : r ∈ search_index_post results reg roots (some rp)) :
    inScopeB rp r.path = true ∨
    (r.kind = "folder" ∧ r.snippet = "Contains matching files." ∧
      isFolderRowIn reg r.path = true ∧
      ∃ p ∈ (((dedupByPath results).filter (fun x => inScopeB rp x.path)).filter
          (fun x => x.kind == "file")).map (fun x => x.path),
        inScopeB rp p = true ∧ r.path ∈ chainList (p.length + 1) (dirname p)) := by
  unfold search_index_post at hr
  dsimp only at hr
  split at hr
  · have h1 := mem_of_take hr
    exact Or.inl (List.mem_filter.mp h1).2
  · have h1 := mem_of_take hr
    rcases bubbleFold_mem _ _ r h1 with h2 | h2
    · exact Or.inl (List.mem_filter.mp h2).2
    · obtain ⟨fp, hfpm, he⟩ := h2
      subst he
      obtain ⟨hfolder, p, hpm, hchain⟩ := parents_sound reg roots _ fp hfpm
      refine Or.inr ⟨rfl, rfl, hfolder, p, hpm, ?_, hchain⟩
      obtain ⟨x, hx, hxe⟩ := List.mem_map.mp hpm
      have hx1 := List.mem_filter.mp hx
      have hx2 := List.mem_filter.mp hx1.1
      rw [← hxe]
      exact hx2.2

/-- The Registry of the C1 scenario: one indexed root `/A`, its
subfolder `/A/sub`, and a file inside the subfolder. -/
def regC1 : List FileRow :=
  [⟨"/A", "folder", "", 0, 0, 0, "", none, none⟩,
   ⟨"/A/sub", "folder", "", 0, 0, 0, "", none, none⟩,
   ⟨"/A/sub/x.txt", "file", "txt", 0, 0, 0, "", none, none⟩]

/-- C1 counterexample: searching with root scope `/A/sub` on a match for
`/A/sub/x.txt` bubbles the indexed root `/A` into the results even
though `/A` is outside the requested scope. -/
theorem search_scope_counterexample :
    (⟨"/A", "folder", "Contains matching files."⟩ : SRow) ∈
      search_index_post [⟨"/A/sub/x.txt", "file", "s"⟩] regC1 ["/A"] (some "/A/sub") ∧
    inScopeB "/A/sub" "/A" = false := by
  exact ⟨by decide, rfl⟩

/-- Witness for C1 at the same scenario, for the file entry itself. -/
theorem search_scope_bubbling_witness :
    ((⟨"/A/sub/x.txt", "file", "s"⟩ : SRow) ∈
      search_index_post [⟨"/A/sub/x.txt", "file", "s"⟩] regC1 ["/A"] (some "/A/sub")) ∧
    (inScopeB "/A/sub" "/A/sub/x.txt" = true ∨
      ((⟨"/A/sub/x.txt", "file", "s"⟩ : SRow).kind = "folder" ∧
        (⟨"/A/sub/x.txt", "file", "s"⟩ : SRow).snippet = "Contains matching files." ∧
        isFolderRowIn regC1 "/A/sub/x.txt" = true ∧
        ∃ p ∈ (((dedupByPath [(⟨"/A/sub/x.txt", "file", "s"⟩ : SRow)]).filter
            (fun x => inScopeB "/A/sub" x.path)).filter
            (fun x => x.kind == "file")).map (fun x => x.path),
          inScopeB "/A/sub" p = true ∧
            "/A/sub/x.txt" ∈ chainList (p.length + 1) (dirname p))) := by
  exact ⟨by decide,
    search_scope_bubbling [⟨"/A/sub/x.txt", "file", "s"⟩] regC1 ["/A"] "/A/sub"
      ⟨"/A/sub/x.txt", "file", "s"⟩ (by decide)⟩

end Contextual
